import Mathlib

/-!
Verification development for the zulu date/time library.

The development shallowly embeds:
  * `delta.py` (the `Delta` subclass of `timedelta`, its `fromtimedelta`
    constructor, its `__iter__` unit breakdown and the monkey-patched
    arithmetic operators), including an exact-rational model of the
    IEEE-754 binary64 rounding performed by `timedelta.total_seconds()`
    and by the float path of the `timedelta` constructor;
  * the pattern-token parsing/formatting engine described by the spec
    (the repository's `zulu/parser.py` itself is not part of the source
    tree, so those definitions are modelled from the spec, anchored on
    the concrete behaviours pinned by `tests/test_zulu.py`).
-/

namespace Zulu

/- ===================================================================
   Part 1.  Exact model of IEEE-754 binary64 rounding.

   Python floats are binary64.  A real value is modelled as an exact
   rational; storing it in a float rounds it to the nearest dyadic
   rational with a 53-bit significand (ties to even).  Overflow and
   subnormals never arise in the ranges used by this development.
   =================================================================== -/

/-- Round a rational to the nearest integer, ties to even (the rounding used
by Python `round` and by IEEE-754 default rounding). -/
def rndHalfEven (q : ℚ) : ℤ :=
  if q - ⌊q⌋ < 1/2 then ⌊q⌋
  else if 1/2 < q - ⌊q⌋ then ⌊q⌋ + 1
  else if 2 ∣ ⌊q⌋ then ⌊q⌋ else ⌊q⌋ + 1

/-- Fuel-bounded downward search: decrease `e` until `2^e ≤ q`. -/
def log2Down : ℕ → ℚ → ℤ → ℤ
  | 0, _, e => e
  | n + 1, q, e => if q < (2:ℚ) ^ e then log2Down n q (e - 1) else e

/-- Fuel-bounded upward search: increase `e` while `2^(e+1) ≤ q`. -/
def log2Up : ℕ → ℚ → ℤ → ℤ
  | 0, _, e => e
  | n + 1, q, e => if (2:ℚ) ^ (e + 1) ≤ q then log2Up n q (e + 1) else e

/-- `floorLog2 q = ⌊log₂ q⌋` for positive `q` in `[2^(-3000), 2^3000)`. -/
def floorLog2 (q : ℚ) : ℤ := log2Up 3100 q (log2Down 3100 q 0)

/-- Nearest dyadic rational with a 53-bit significand (round to nearest,
ties to even): the model of storing an exact real value in a binary64
Python float. -/
def rnd53 (q : ℚ) : ℚ :=
  if q = 0 then 0
  else (rndHalfEven (q / (2:ℚ) ^ (floorLog2 |q| - 52)) : ℚ) * (2:ℚ) ^ (floorLog2 |q| - 52)

/- ===================================================================
   Part 2.  Model of `delta.py`.

   A Python `timedelta` value is represented by its total signed
   duration in microseconds (`tot : ℤ`); `timedelta` equality is
   equality of that total.  The normalized attributes `days`,
   `seconds`, `microseconds` are recovered with floor division
   (Python divmod semantics).
   =================================================================== -/

/-- Truncation toward zero: Python `int(x)` applied to a float value. -/
def truncQ (q : ℚ) : ℤ := if 0 ≤ q then ⌊q⌋ else ⌈q⌉

/-- `timedelta.days` of the timedelta with total microseconds `tot`. -/
def tdDays (tot : ℤ) : ℤ := Int.fdiv tot 86400000000

/-- `timedelta.seconds` of the timedelta with total microseconds `tot`. -/
def tdSeconds (tot : ℤ) : ℤ := Int.fdiv (Int.fmod tot 86400000000) 1000000

/-- `timedelta.microseconds` of the timedelta with total microseconds `tot`. -/
def tdMicroseconds (tot : ℤ) : ℤ := Int.fmod tot 1000000

/-- `timedelta.total_seconds()`: the exact value
`((days * 86400 + seconds) * 10**6 + microseconds) / 10**6` is produced by one
correctly rounded binary64 division, so the result is the rounded value of
`tot / 10^6`. -/
def total_seconds (tot : ℤ) : ℚ := rnd53 ((tot : ℚ) / 1000000)

/-- The float path of the `timedelta` constructor, `timedelta(seconds=f)` for a
float `f`: CPython splits `f` with `math.modf` (exact), multiplies the
fractional part by `10**6` in float arithmetic (one rounding) and rounds the
result to integer microseconds with `round` (ties to even).  The result is the
total microsecond count of the constructed timedelta. -/
def timedeltaFromFloatSeconds (f : ℚ) : ℤ :=
  truncQ f * 1000000 + rndHalfEven (rnd53 ((f - truncQ f) * 1000000))

/-- `Delta.fromtimedelta` (delta.py line 79): `cls(seconds=delta.total_seconds())`.
The argument timedelta is collapsed to a float second count and a new value is
built from that float. -/
def fromtimedelta (tot : ℤ) : ℤ := timedeltaFromFloatSeconds (total_seconds tot)

/-- `int(a / n)` for Python ints `a`, `n`: true division produces a correctly
rounded float, and `int` truncates toward zero.  Used by `Delta.__iter__`. -/
def pyIntDivFloat (a n : ℤ) : ℤ := truncQ (rnd53 ((a : ℚ) / (n : ℚ)))

/-- The list of `(unit, value)` pairs built by `Delta.__iter__` from the
working delta `d` and the sign `factor`. -/
def deltaIterOf (d factor : ℤ) : List (String × ℤ) :=
  [(("weeks"), pyIntDivFloat (tdDays d) 7 * factor),
   (("days"), Int.fmod (tdDays d) 7 * factor),
   (("hours"), pyIntDivFloat (tdSeconds d) 3600 * factor),
   (("minutes"), Int.fmod (pyIntDivFloat (tdSeconds d) 60) 60 * factor),
   (("seconds"), Int.fmod (tdSeconds d) 60 * factor),
   (("microseconds"), tdMicroseconds d * factor)]

/-- `Delta.__iter__` (delta.py lines 132-162): the six `(unit, value)` pairs.
When `self.total_seconds()` is negative the code rebuilds a positive delta
from `abs(total)` (through the float constructor path `Delta(seconds=...)`)
and negates every component. -/
def deltaIter (tot : ℤ) : List (String × ℤ) :=
  if total_seconds tot < 0 then
    deltaIterOf (timedeltaFromFloatSeconds (-total_seconds tot)) (-1)
  else deltaIterOf tot 1

/-- Python values that can come out of the patched arithmetic operators of
`Delta`: a timedelta (tagged with whether it is the enriched `Delta`
subclass), an int, a float, or a 2-tuple (for `divmod`). -/
inductive PyVal where
  | td (isDelta : Bool) (micros : ℤ)
  | intv (n : ℤ)
  | floatv (q : ℚ)
  | pairv (a b : PyVal)
deriving DecidableEq

/-- The per-item conversion of `_asdelta`'s tuple branch: a timedelta item is
replaced by `Delta.fromtimedelta(item)`, anything else is untouched. -/
def asdeltaItem : PyVal → PyVal
  | .td _ m => .td true (fromtimedelta m)
  | v => v

/-- `_asdelta` (delta.py lines 18-48): a timedelta result is converted with
`Delta.fromtimedelta`, a tuple result has each timedelta item converted,
anything else is returned unchanged. -/
def asdelta : PyVal → PyVal
  | .td _ m => .td true (fromtimedelta m)
  | .pairv a b => .pairv (asdeltaItem a) (asdeltaItem b)
  | v => v

/-- `Delta.__add__ = _asdelta(Delta.__add__)`: the base `timedelta.__add__`
returns a plain (untagged) timedelta, which `_asdelta` converts. -/
def deltaAdd (a b : ℤ) : PyVal := asdelta (.td false (a + b))

/-- `Delta.__sub__`. -/
def deltaSub (a b : ℤ) : PyVal := asdelta (.td false (a - b))

/-- `Delta.__mul__` / `Delta.__rmul__` with an int factor. -/
def deltaMulInt (a k : ℤ) : PyVal := asdelta (.td false (a * k))

/-- `Delta.__mul__` with a float factor: CPython multiplies exactly via
`as_integer_ratio` and rounds the microsecond count half-to-even. -/
def deltaMulFloat (a : ℤ) (q : ℚ) : PyVal := asdelta (.td false (rndHalfEven ((a : ℚ) * q)))

/-- `Delta.__floordiv__` by an int: floor division of the microsecond count. -/
def deltaFloordivInt (a k : ℤ) : PyVal := asdelta (.td false (Int.fdiv a k))

/-- `Delta.__floordiv__` by a timedelta: the result is a plain int. -/
def deltaFloordivTd (a b : ℤ) : PyVal := asdelta (.intv (Int.fdiv a b))

/-- `Delta.__truediv__` by an int: microseconds divided with
`_divide_and_round` (ties to even). -/
def deltaTruedivInt (a k : ℤ) : PyVal := asdelta (.td false (rndHalfEven ((a : ℚ) / (k : ℚ))))

/-- `Delta.__truediv__` by a timedelta: the result is a float. -/
def deltaTruedivTd (a b : ℤ) : PyVal := asdelta (.floatv (rnd53 ((a : ℚ) / (b : ℚ))))

/-- `Delta.__mod__` by a timedelta (Python int `%` is floor-mod). -/
def deltaMod (a b : ℤ) : PyVal := asdelta (.td false (Int.fmod a b))

/-- `Delta.__divmod__` by a timedelta: `(quotient int, remainder timedelta)`. -/
def deltaDivmod (a b : ℤ) : PyVal :=
  asdelta (.pairv (.intv (Int.fdiv a b)) (.td false (Int.fmod a b)))

/-- `Delta.__pos__`: `timedelta.__pos__` returns `self` (still the `Delta`
instance), which `_asdelta` nevertheless reconverts. -/
def deltaPos (a : ℤ) : PyVal := asdelta (.td true a)

/-- `Delta.__neg__`. -/
def deltaNeg (a : ℤ) : PyVal := asdelta (.td false (-a))

/-- `Delta.__abs__`. -/
def deltaAbs (a : ℤ) : PyVal := asdelta (.td false |a|)

/-- Every timedelta component of the value carries the `Delta` tag. -/
def allDelta : PyVal → Bool
  | .td t _ => t
  | .pairv a b => allDelta a && allDelta b
  | _ => true

/- ===================================================================
   Part 3.  The pattern-token parsing/formatting engine.

   The repository source tree contains only `zulu/delta.py` and the
   tests; `zulu/parser.py` (Token Table, Pattern Translator, String
   Parser, Offset Resolver) is not under src/, so the definitions in
   this part are modelled from the spec, anchored on the concrete
   behaviours pinned by `tests/test_zulu.py`.
   =================================================================== -/

/-- A naive wall-clock reading: the seven date/time fields a parse produces
before timezone normalization. -/
structure Fields where
  year : ℕ
  month : ℕ
  day : ℕ
  hour : ℕ
  minute : ℕ
  second : ℕ
  micro : ℕ
deriving DecidableEq

/-- Gregorian leap-year rule (external calendar runtime). -/
def isLeap (y : ℕ) : Bool := (y % 4 == 0 && y % 100 != 0) || y % 400 == 0

/-- Month lengths of the Gregorian calendar (external calendar runtime). -/
def daysInMonth (y m : ℕ) : ℕ :=
  if m == 2 then (if isLeap y then 29 else 28)
  else if m == 4 || m == 6 || m == 9 || m == 11 then 30
  else 31

/-- Field ranges accepted when constructing an instant (the ranges enforced
by the external datetime runtime: year 1..9999, valid month/day, time fields
in range, microseconds below one million). -/
def validFields (f : Fields) : Prop :=
  1 ≤ f.year ∧ f.year ≤ 9999 ∧ 1 ≤ f.month ∧ f.month ≤ 12 ∧ 1 ≤ f.day ∧
  f.day ≤ daysInMonth f.year f.month ∧ f.hour ≤ 23 ∧ f.minute ≤ 59 ∧
  f.second ≤ 59 ∧ f.micro ≤ 999999

instance validFields_dec : DecidablePred validFields := by
  intro f
  unfold validFields
  infer_instance

/-- Modelled from the spec: the external calendar runtime's civil-date to
day-number conversion (days since the Unix epoch 1970-01-01, proleptic
Gregorian calendar). -/
def daysFromCivil (y m d : ℤ) : ℤ :=
  let y1 : ℤ := if m ≤ 2 then y - 1 else y
  let era : ℤ := Int.fdiv y1 400
  let yoe : ℤ := y1 - era * 400
  let mp : ℤ := Int.fmod (m + 9) 12
  let doy : ℤ := Int.fdiv (153 * mp + 2) 5 + d - 1
  let doe : ℤ := yoe * 365 + Int.fdiv yoe 4 - Int.fdiv yoe 100 + doy
  era * 146097 + doe - 719468

/-- The absolute instant (microseconds since the Unix epoch, UTC) named by a
naive field reading interpreted as UTC. -/
def fieldsToAbs (f : Fields) : ℤ :=
  daysFromCivil f.year f.month f.day * 86400000000
    + ((f.hour : ℤ) * 3600 + (f.minute : ℤ) * 60 + (f.second : ℤ)) * 1000000 + (f.micro : ℤ)

/-- Decimal digit test and value. -/
def digitVal (c : Char) : Option ℕ :=
  if ('0' ≤ c ∧ c ≤ '9') then some (c.toNat - 48) else none

/-- Read exactly `k` decimal digits, accumulating their value. -/
def readDigits : ℕ → ℕ → List Char → Option (ℕ × List Char)
  | 0, acc, cs => some (acc, cs)
  | _ + 1, _, [] => none
  | k + 1, acc, c :: cs =>
    match digitVal c with
    | some v => readDigits k (acc * 10 + v) cs
    | none => none

/-- A fixed-width decimal field of exactly `k` digits. -/
def parseDigits (k : ℕ) (cs : List Char) : Option (ℕ × List Char) := readDigits k 0 cs

/-- Greedily read up to `fuel` decimal digits, returning value, digit count
and remaining input. -/
def readFrac : ℕ → ℕ → ℕ → List Char → ℕ × ℕ × List Char
  | 0, acc, cnt, cs => (acc, cnt, cs)
  | _ + 1, acc, cnt, [] => (acc, cnt, [])
  | k + 1, acc, cnt, c :: cs =>
    match digitVal c with
    | some v => readFrac k (acc * 10 + v) (cnt + 1) cs
    | none => (acc, cnt, c :: cs)

/-- A variable-width decimal field of 1 to `maxD` digits (greedy). -/
def readNum (maxD : ℕ) (cs : List Char) : Option (ℕ × List Char) :=
  match readFrac maxD 0 0 cs with
  | (_, 0, _) => none
  | (v, _, rest) => some (v, rest)

/-- Modelled from the spec: the fractional-second field (native `%f`): 1 to 6
digits, scaled to microseconds by the number of digits read. -/
def parseFrac (cs : List Char) : Option (ℕ × List Char) :=
  if (readFrac 6 0 0 cs).2.1 = 0 then none
  else some ((readFrac 6 0 0 cs).1 * 10 ^ (6 - (readFrac 6 0 0 cs).2.1), (readFrac 6 0 0 cs).2.2)

/-- Modelled from the spec: the Offset Resolver, `resolve_offset(sign, hh, mm)`
(spec section 4.4): the combined magnitude in minutes is accepted exactly when
it is strictly below 24 hours; the result is the signed minute count. -/
def resolve_offset (neg : Bool) (hh mm : ℕ) : Option ℤ :=
  if hh * 60 + mm < 1440 then
    some (if neg then -((hh : ℤ) * 60 + (mm : ℤ)) else (hh : ℤ) * 60 + (mm : ℤ))
  else none

/-- The digits of an explicit offset after its sign: `HHMM` or `HH:MM`,
validated by the Offset Resolver. -/
def parseOffsetTail (neg : Bool) (cs : List Char) : Option (Option ℤ × List Char) :=
  match parseDigits 2 cs with
  | none => none
  | some (hh, rest) =>
    match parseDigits 2 (match rest with
      | c :: r => if c = ':' then r else c :: r
      | [] => []) with
    | none => none
    | some (mm, rest3) =>
      match resolve_offset neg hh mm with
      | none => none
      | some off => some (some off, rest3)

/-- Modelled from the spec: the optional explicit numeric UTC offset suffix
(`+HHMM`, `-HHMM`, `+HH:MM`, `-HH:MM`).  Absence of a sign consumes nothing. -/
def parseOffset (cs : List Char) : Option (Option ℤ × List Char) :=
  match cs with
  | c :: rest =>
    if c = '+' then parseOffsetTail false rest
    else if c = '-' then parseOffsetTail true rest
    else some (none, c :: rest)
  | [] => some (none, [])

/-- Validate the parsed fields and read the optional offset suffix. -/
def finishDefault (y mo d hh mi ss us : ℕ) (cs : List Char) :
    Option (Fields × Option ℤ × List Char) :=
  if validFields ⟨y, mo, d, hh, mi, ss, us⟩ then
    match parseOffset cs with
    | none => none
    | some (off, rest) => some (⟨y, mo, d, hh, mi, ss, us⟩, off, rest)
  else none

/-- The time-of-day part of the default formats: `HH:mm`, optionally `:ss`,
optionally `.SSSSSS`. -/
def parseTime (cs : List Char) : Option (ℕ × ℕ × ℕ × ℕ × List Char) :=
  match parseDigits 2 cs with
  | none => none
  | some (hh, rest) =>
    match rest with
    | c1 :: r2 =>
      if c1 = ':' then
        match parseDigits 2 r2 with
        | none => none
        | some (mi, r3) =>
          match r3 with
          | c2 :: r4 =>
            if c2 = ':' then
              match parseDigits 2 r4 with
              | none => none
              | some (ss, r5) =>
                match r5 with
                | c3 :: r6 =>
                  if c3 = '.' then
                    match parseFrac r6 with
                    | none => none
                    | some (us, r7) => some (hh, mi, ss, us, r7)
                  else some (hh, mi, ss, 0, c3 :: r6)
                | [] => some (hh, mi, ss, 0, [])
            else some (hh, mi, 0, 0, c2 :: r4)
          | [] => some (hh, mi, 0, 0, [])
      else none
    | [] => none

/-- Modelled from the spec: the String Parser's fixed default candidate set
(spec section 4.3): year, year-month, full date, full date with time to
minute, second or microsecond precision separated by `T` or space, each
optionally followed by an explicit numeric UTC offset.  Returns the fields,
the resolved offset (if present) and the unconsumed remainder of the input. -/
def defaultRawParse (cs : List Char) : Option (Fields × Option ℤ × List Char) :=
  match parseDigits 4 cs with
  | none => none
  | some (y, rest) =>
    match rest with
    | c1 :: r1 =>
      if c1 = '-' then
        match parseDigits 2 r1 with
        | none => none
        | some (mo, r2) =>
          match r2 with
          | c2 :: r3 =>
            if c2 = '-' then
              match parseDigits 2 r3 with
              | none => none
              | some (d, r4) =>
                match r4 with
                | c3 :: r5 =>
                  if c3 = 'T' ∨ c3 = ' ' then
                    match parseTime r5 with
                    | none => none
                    | some (hh, mi, ss, us, r6) => finishDefault y mo d hh mi ss us r6
                  else finishDefault y mo d 0 0 0 0 (c3 :: r5)
                | [] => finishDefault y mo d 0 0 0 0 []
            else finishDefault y mo 1 0 0 0 0 (c2 :: r3)
          | [] => finishDefault y mo 1 0 0 0 0 []
      else finishDefault y 1 1 0 0 0 0 (c1 :: r1)
    | [] => finishDefault y 1 1 0 0 0 0 []

/-- Parse outcomes: a UTC instant (absolute microseconds since the epoch), a
`ParseError`, or a `ValueError` (value validation, e.g. a bad timezone name). -/
inductive PResult where
  | ok (instant : ℤ)
  | parseError
  | valueError
deriving DecidableEq

/-- Modelled from the spec: the external timezone-lookup collaborator, as a
fixed-offset table of the zone names exercised by the tests; unknown names
fail the lookup (surfaced by `parse` as a `ValueError`). -/
def tzOffsetMinutes (name : String) : Option ℤ :=
  if name = ("UTC") then some 0
  else if name = ("US/Eastern") then some (-300)
  else none

/-- Modelled from the spec: `parse(input, default_tz)` for string input under
the default formats.  A candidate matches only if the entire input is
consumed.  An explicit offset of `m` signed minutes yields UTC = local - m
minutes; otherwise `default_tz` (validated, `ValueError` on an unknown name)
is applied the same way; with no `default_tz`, UTC is assumed. -/
def parse (cs : List Char) (default_tz : Option String) : PResult :=
  match defaultRawParse cs with
  | some (f, some off, []) => .ok (fieldsToAbs f - off * 60000000)
  | some (f, none, []) =>
    match default_tz with
    | none => .ok (fieldsToAbs f)
    | some name =>
      match tzOffsetMinutes name with
      | some z => .ok (fieldsToAbs f - z * 60000000)
      | none => .valueError
  | _ => .parseError

/-- Zero-padded fixed-width decimal rendering (most significant digit
first). -/
def padNum : ℕ → ℕ → List Char
  | 0, _ => []
  | k + 1, n => Char.ofNat (48 + n / 10 ^ k) :: padNum k (n % 10 ^ k)

/-- Modelled from the spec: `DateTime.isoformat()` output for a UTC instant
(external datetime runtime): `YYYY-MM-DDTHH:MM:SS[.ffffff]+00:00`, the
fractional part present only when the microsecond field is nonzero. -/
def isoformat (f : Fields) : List Char :=
  padNum 4 f.year ++ '-' :: (padNum 2 f.month ++ '-' :: (padNum 2 f.day
    ++ 'T' :: (padNum 2 f.hour ++ ':' :: (padNum 2 f.minute ++ ':' :: (padNum 2 f.second
    ++ ((if f.micro = 0 then [] else '.' :: padNum 6 f.micro)
    ++ ('+' :: '0' :: '0' :: ':' :: '0' :: '0' :: [])))))))

/-- The recognized human-pattern tokens (spec section 4.1 and the token pairs
exercised by `test_parse_pattern_mapping`). -/
inductive PatTok where
  | year4
  | year2
  | monthFull
  | monthAbbr
  | month2
  | month1
  | doy3
  | doy1
  | day2
  | day1
  | wkdFull
  | wkdAbbr
  | wkdNum
  | hour24v2
  | hour24v1
  | hour12v2
  | hour12v1
  | min2
  | min1
  | sec2
  | sec1
  | frac
  | ampm
  | lit (c : Char)
deriving DecidableEq

/-- Modelled from the spec: the Token Table, ordered longest-symbol-first so
that the greedy tokenizer prefers `dd` over `d` (spec section 3,
PatternToken lifecycle).  Every fractional-second run length `S` .. `SSSSSS`
maps to the same fractional directive, as pinned by
`test_parse_pattern_mapping` (all run lengths parse `000006`). -/
def tokenTable : List (String × PatTok) :=
  [(("SSSSSS"), .frac),
   (("SSSSS"), .frac),
   (("SSSS"), .frac), (("YYYY"), .year4), (("MMMM"), .monthFull), (("EEEE"), .wkdFull),
   (("SSS"), .frac), (("MMM"), .monthAbbr), (("EEE"), .wkdAbbr), (("eee"), .wkdAbbr),
   (("DDD"), .doy3),
   (("SS"), .frac), (("YY"), .year2), (("MM"), .month2), (("dd"), .day2), (("EE"), .wkdAbbr),
   (("HH"), .hour24v2), (("hh"), .hour12v2), (("mm"), .min2), (("ss"), .sec2),
   (("S"), .frac), (("M"), .month1), (("D"), .doy1), (("d"), .day1), (("E"), .wkdAbbr),
   (("e"), .wkdNum), (("H"), .hour24v1), (("h"), .hour12v1), (("m"), .min1), (("s"), .sec1),
   (("a"), .ampm)]

/-- Find the first (hence longest) table symbol that is a prefix of the
input. -/
def findTok : List Char → List (String × PatTok) → Option (PatTok × List Char)
  | _, [] => none
  | cs, (sym, t) :: rest =>
    if sym.data.isPrefixOf cs then some (t, cs.drop sym.data.length)
    else findTok cs rest

/-- Modelled from the spec: the Pattern Translator's greedy maximal-munch
scan (spec section 4.2): at each position match the longest known token
symbol, otherwise pass the character through as a literal. -/
def tokenizePattern : ℕ → List Char → List PatTok
  | 0, _ => []
  | _ + 1, [] => []
  | fuel + 1, c :: cs =>
    match findTok (c :: cs) tokenTable with
    | some (t, rest) => t :: tokenizePattern fuel rest
    | none => .lit c :: tokenizePattern fuel cs

/-- The native strftime-style directive emitted for each token. -/
def tokToDirective : PatTok → List Char
  | .year4 => ('%' :: 'Y' :: [])
  | .year2 => ('%' :: 'y' :: [])
  | .monthFull => ('%' :: 'B' :: [])
  | .monthAbbr => ('%' :: 'b' :: [])
  | .month2 => ('%' :: 'm' :: [])
  | .month1 => ('%' :: 'm' :: [])
  | .doy3 => ('%' :: 'j' :: [])
  | .doy1 => ('%' :: 'j' :: [])
  | .day2 => ('%' :: 'd' :: [])
  | .day1 => ('%' :: 'd' :: [])
  | .wkdFull => ('%' :: 'A' :: [])
  | .wkdAbbr => ('%' :: 'a' :: [])
  | .wkdNum => ('%' :: 'w' :: [])
  | .hour24v2 => ('%' :: 'H' :: [])
  | .hour24v1 => ('%' :: 'H' :: [])
  | .hour12v2 => ('%' :: 'I' :: [])
  | .hour12v1 => ('%' :: 'I' :: [])
  | .min2 => ('%' :: 'M' :: [])
  | .min1 => ('%' :: 'M' :: [])
  | .sec2 => ('%' :: 'S' :: [])
  | .sec1 => ('%' :: 'S' :: [])
  | .frac => ('%' :: 'f' :: [])
  | .ampm => ('%' :: 'p' :: [])
  | .lit c => (c :: [])

/-- Modelled from the spec: `translate_pattern` (spec sections 4.2 and 6):
any candidate containing a `%` directive marker is treated as already native
and returned unchanged; otherwise the human tokens are substituted by their
native directives and literal characters pass through. -/
def translate_pattern (p : List Char) : List Char :=
  if p.contains '%' then p
  else ((tokenizePattern p.length p).map tokToDirective).flatten

/-- The raw values captured while matching one candidate against the input. -/
structure RawVals where
  year : Option ℕ
  month : Option ℕ
  day : Option ℕ
  doy : Option ℕ
  hour : Option ℕ
  hour12 : Option ℕ
  minute : Option ℕ
  second : Option ℕ
  micro : Option ℕ
  pm : Option Bool
deriving DecidableEq

/-- No captures yet. -/
def emptyRaw : RawVals := ⟨none, none, none, none, none, none, none, none, none, none⟩

/-- Month names (external locale data, POSIX English). -/
def monthNamesFull : List (String × ℕ) :=
  [(("January"), 1), (("February"), 2), (("March"), 3), (("April"), 4), (("May"), 5),
   (("June"), 6), (("July"), 7), (("August"), 8), (("September"), 9), (("October"), 10),
   (("November"), 11), (("December"), 12)]

/-- Abbreviated month names. -/
def monthNamesAbbr : List (String × ℕ) :=
  [(("Jan"), 1), (("Feb"), 2), (("Mar"), 3), (("Apr"), 4), (("May"), 5), (("Jun"), 6),
   (("Jul"), 7), (("Aug"), 8), (("Sep"), 9), (("Oct"), 10), (("Nov"), 11), (("Dec"), 12)]

/-- Weekday names, Monday-first indexing. -/
def weekdayNamesFull : List (String × ℕ) :=
  [(("Monday"), 0), (("Tuesday"), 1), (("Wednesday"), 2), (("Thursday"), 3),
   (("Friday"), 4), (("Saturday"), 5), (("Sunday"), 6)]

/-- Abbreviated weekday names. -/
def weekdayNamesAbbr : List (String × ℕ) :=
  [(("Mon"), 0), (("Tue"), 1), (("Wed"), 2), (("Thu"), 3), (("Fri"), 4), (("Sat"), 5),
   (("Sun"), 6)]

/-- Match one of the given names as a prefix of the input. -/
def matchName : List Char → List (String × ℕ) → Option (ℕ × List Char)
  | _, [] => none
  | cs, (nm, v) :: rest =>
    if nm.data.isPrefixOf cs then some (v, cs.drop nm.data.length)
    else matchName cs rest

/-- Modelled from the spec: the per-token matcher of the parsing regex
(spec section 4.2), with the widths of the equivalent native strptime
directives as pinned by `test_parse_format`: exactly 4 digits for `%Y` and 2
for `%y`, 1-2 digits for the other numeric fields, 1-3 for day-of-year, 1-6
for fractional seconds, word alternations for names, with the native
directive's value ranges. -/
def runTok (t : PatTok) (r : RawVals) (cs : List Char) : Option (RawVals × List Char) :=
  match t with
  | .year4 =>
    match parseDigits 4 cs with
    | some (v, rest) => some ({ r with year := some v }, rest)
    | none => none
  | .year2 =>
    match parseDigits 2 cs with
    | some (v, rest) =>
      some ({ r with year := some (if v ≤ 68 then 2000 + v else 1900 + v) }, rest)
    | none => none
  | .monthFull =>
    match matchName cs monthNamesFull with
    | some (v, rest) => some ({ r with month := some v }, rest)
    | none => none
  | .monthAbbr =>
    match matchName cs monthNamesAbbr with
    | some (v, rest) => some ({ r with month := some v }, rest)
    | none => none
  | .month2 =>
    match readNum 2 cs with
    | some (v, rest) =>
      if 1 ≤ v ∧ v ≤ 12 then some ({ r with month := some v }, rest) else none
    | none => none
  | .month1 =>
    match readNum 2 cs with
    | some (v, rest) =>
      if 1 ≤ v ∧ v ≤ 12 then some ({ r with month := some v }, rest) else none
    | none => none
  | .doy3 =>
    match readNum 3 cs with
    | some (v, rest) =>
      if 1 ≤ v ∧ v ≤ 366 then some ({ r with doy := some v }, rest) else none
    | none => none
  | .doy1 =>
    match readNum 3 cs with
    | some (v, rest) =>
      if 1 ≤ v ∧ v ≤ 366 then some ({ r with doy := some v }, rest) else none
    | none => none
  | .day2 =>
    match readNum 2 cs with
    | some (v, rest) =>
      if 1 ≤ v ∧ v ≤ 31 then some ({ r with day := some v }, rest) else none
    | none => none
  | .day1 =>
    match readNum 2 cs with
    | some (v, rest) =>
      if 1 ≤ v ∧ v ≤ 31 then some ({ r with day := some v }, rest) else none
    | none => none
  | .wkdFull =>
    match matchName cs weekdayNamesFull with
    | some (_, rest) => some (r, rest)
    | none => none
  | .wkdAbbr =>
    match matchName cs weekdayNamesAbbr with
    | some (_, rest) => some (r, rest)
    | none => none
  | .wkdNum =>
    match readNum 1 cs with
    | some (v, rest) => if v ≤ 6 then some (r, rest) else none
    | none => none
  | .hour24v2 =>
    match readNum 2 cs with
    | some (v, rest) => if v ≤ 23 then some ({ r with hour := some v }, rest) else none
    | none => none
  | .hour24v1 =>
    match readNum 2 cs with
    | some (v, rest) => if v ≤ 23 then some ({ r with hour := some v }, rest) else none
    | none => none
  | .hour12v2 =>
    match readNum 2 cs with
    | some (v, rest) =>
      if 1 ≤ v ∧ v ≤ 12 then some ({ r with hour12 := some v }, rest) else none
    | none => none
  | .hour12v1 =>
    match readNum 2 cs with
    | some (v, rest) =>
      if 1 ≤ v ∧ v ≤ 12 then some ({ r with hour12 := some v }, rest) else none
    | none => none
  | .min2 =>
    match readNum 2 cs with
    | some (v, rest) => if v ≤ 59 then some ({ r with minute := some v }, rest) else none
    | none => none
  | .min1 =>
    match readNum 2 cs with
    | some (v, rest) => if v ≤ 59 then some ({ r with minute := some v }, rest) else none
    | none => none
  | .sec2 =>
    match readNum 2 cs with
    | some (v, rest) => if v ≤ 59 then some ({ r with second := some v }, rest) else none
    | none => none
  | .sec1 =>
    match readNum 2 cs with
    | some (v, rest) => if v ≤ 59 then some ({ r with second := some v }, rest) else none
    | none => none
  | .frac =>
    match parseFrac cs with
    | some (v, rest) => some ({ r with micro := some v }, rest)
    | none => none
  | .ampm =>
    match cs with
    | c1 :: c2 :: rest =>
      if c1 = 'A' ∧ c2 = 'M' then some ({ r with pm := some false }, rest)
      else if c1 = 'P' ∧ c2 = 'M' then some ({ r with pm := some true }, rest)
      else none
    | _ => none
  | .lit ch =>
    match cs with
    | c :: rest => if c = ch then some (r, rest) else none
    | [] => none

/-- Run the token matchers left to right over the input. -/
def runToks : List PatTok → RawVals → List Char → Option (RawVals × List Char)
  | [], r, cs => some (r, cs)
  | t :: ts, r, cs =>
    match runTok t r cs with
    | some (r2, rest) => runToks ts r2 rest
    | none => none

/-- Walk the months of year `y` converting a day-of-year count. -/
def doyGo (y : ℕ) : ℕ → ℕ → ℕ → ℕ × ℕ
  | 0, m, n => (m, n)
  | fuel + 1, m, n =>
    if n ≤ daysInMonth y m ∨ 12 ≤ m then (m, n)
    else doyGo y fuel (m + 1) (n - daysInMonth y m)

/-- Convert a day-of-year (native `%j`) capture to month and day. -/
def doyToMonthDay (y doy : ℕ) : ℕ × ℕ := doyGo y 12 1 doy

/-- The 24-hour value implied by the captures: a 24-hour capture wins; a
12-hour capture is interpreted through the am/pm capture (absent am/pm means
AM, so 12 becomes 0), matching native strptime. -/
def resolveHour (r : RawVals) : ℕ :=
  match r.hour with
  | some h => h
  | none =>
    match r.hour12 with
    | some h12 =>
      match r.pm with
      | some true => if h12 = 12 then 12 else h12 + 12
      | _ => if h12 = 12 then 0 else h12
    | none => 0

/-- Month and day implied by the captures (a day-of-year capture fills both
when neither was captured directly; native strptime defaults are 1). -/
def resolveMonthDay (r : RawVals) : ℕ × ℕ :=
  match r.month, r.day, r.doy with
  | none, none, some j => doyToMonthDay (r.year.getD 1900) j
  | mo, dd, _ => (mo.getD 1, dd.getD 1)

/-- Build the naive fields from the captures with native strptime defaults
(1900-01-01, midnight), validated by the datetime runtime's field ranges. -/
def buildFields (r : RawVals) : Option Fields :=
  if validFields ⟨r.year.getD 1900, (resolveMonthDay r).1, (resolveMonthDay r).2,
      resolveHour r, r.minute.getD 0, r.second.getD 0, r.micro.getD 0⟩ then
    some ⟨r.year.getD 1900, (resolveMonthDay r).1, (resolveMonthDay r).2,
      resolveHour r, r.minute.getD 0, r.second.getD 0, r.micro.getD 0⟩
  else none

/-- Modelled from the spec: parsing one candidate human pattern against an
input string; the candidate matches only if the translated matcher consumes
the ENTIRE input (anchored at both ends, spec section 4.3). -/
def parseWithPattern (p cs : List Char) : Option Fields :=
  match runToks (tokenizePattern p.length p) emptyRaw cs with
  | some (r, []) => buildFields r
  | _ => none

/-- Unpadded decimal rendering. -/
def natDigits (n : ℕ) : List Char := Nat.toDigits 10 n

/-- Day of week, Monday = 0 (1970-01-01 was a Thursday). -/
def dayOfWeek (f : Fields) : ℕ :=
  (Int.fmod (daysFromCivil (f.year) (f.month) (f.day) + 3) 7).toNat

/-- Name with the given index in a name table. -/
def nameOf (v : ℕ) : List (String × ℕ) → List Char
  | [] => []
  | (nm, w) :: rest => if w = v then nm.data else nameOf v rest

/-- Ordinal day of the year of a field reading. -/
def dayOfYear (f : Fields) : ℕ :=
  f.day + (List.range (f.month - 1)).foldl (fun acc i => acc + daysInMonth f.year (i + 1)) 0

/-- Modelled from the spec: formatting one token of a human pattern for an
instant (the formatting side of the Pattern Translator plus the native
strftime collaborator). -/
def formatTok (f : Fields) : PatTok → List Char
  | .year4 => padNum 4 f.year
  | .year2 => padNum 2 (f.year % 100)
  | .monthFull => nameOf f.month monthNamesFull
  | .monthAbbr => nameOf f.month monthNamesAbbr
  | .month2 => padNum 2 f.month
  | .month1 => natDigits f.month
  | .doy3 => padNum 3 (dayOfYear f)
  | .doy1 => natDigits (dayOfYear f)
  | .day2 => padNum 2 f.day
  | .day1 => natDigits f.day
  | .wkdFull => nameOf (dayOfWeek f) weekdayNamesFull
  | .wkdAbbr => nameOf (dayOfWeek f) weekdayNamesAbbr
  | .wkdNum => natDigits ((dayOfWeek f + 1) % 7)
  | .hour24v2 => padNum 2 f.hour
  | .hour24v1 => natDigits f.hour
  | .hour12v2 => padNum 2 (if f.hour % 12 = 0 then 12 else f.hour % 12)
  | .hour12v1 => natDigits (if f.hour % 12 = 0 then 12 else f.hour % 12)
  | .min2 => padNum 2 f.minute
  | .min1 => natDigits f.minute
  | .sec2 => padNum 2 f.second
  | .sec1 => natDigits f.second
  | .frac => padNum 6 f.micro
  | .ampm => if f.hour < 12 then ('A' :: 'M' :: []) else ('P' :: 'M' :: [])
  | .lit c => (c :: [])

/-- Modelled from the spec: formatting an instant with a human pattern
(tokenize, then emit each token's text). -/
def formatWithPattern (p : List Char) (f : Fields) : List Char :=
  ((tokenizePattern p.length p).map (formatTok f)).flatten

/- ===================================================================
   Part 1 lemmas: properties of the rounding model.
   =================================================================== -/

theorem rndHalfEven_le (q : ℚ) : |(rndHalfEven q : ℚ) - q| ≤ 1/2 := by
  unfold rndHalfEven
  have h0 : (⌊q⌋ : ℚ) ≤ q := Int.floor_le q
  have h1 : q < (⌊q⌋ : ℚ) + 1 := Int.lt_floor_add_one q
  split_ifs with ha hb hc
  · rw [abs_sub_comm, abs_of_nonneg (by linarith)]
    linarith
  · rw [abs_of_nonneg (by push_cast; linarith)]
    push_cast
    linarith
  · rw [abs_sub_comm, abs_of_nonneg (by linarith)]
    linarith
  · rw [abs_of_nonneg (by push_cast; linarith)]
    push_cast
    linarith

theorem rndHalfEven_intCast (m : ℤ) : rndHalfEven (m : ℚ) = m := by
  unfold rndHalfEven
  rw [Int.floor_intCast]
  norm_num

theorem rndHalfEven_eq_of_abs_lt {q : ℚ} {m : ℤ} (h : |q - m| < 1/2) :
    rndHalfEven q = m := by
  have h1 := rndHalfEven_le q
  have h2 : |(rndHalfEven q : ℚ) - m| < 1 := by
    calc |(rndHalfEven q : ℚ) - m|
        = |((rndHalfEven q : ℚ) - q) + (q - m)| := by rw [sub_add_sub_cancel]
    _ ≤ |(rndHalfEven q : ℚ) - q| + |q - m| := abs_add _ _
    _ < 1 := by linarith
  have h3 : |rndHalfEven q - m| < 1 := by exact_mod_cast h2
  rw [abs_lt] at h3
  omega

theorem rndHalfEven_one_le {q : ℚ} (h : 1 ≤ q) : 1 ≤ rndHalfEven q := by
  have h0 : (1:ℤ) ≤ ⌊q⌋ := by exact_mod_cast Int.le_floor.mpr (by exact_mod_cast h)
  unfold rndHalfEven
  split_ifs <;> omega

theorem rndHalfEven_neg (q : ℚ) : rndHalfEven (-q) = -rndHalfEven q := by
  by_cases h0 : q = (⌊q⌋ : ℚ)
  · rw [h0, ← Int.cast_neg, rndHalfEven_intCast, rndHalfEven_intCast]
  · have hfl : (⌊q⌋ : ℚ) ≤ q := Int.floor_le q
    have hlt : (⌊q⌋ : ℚ) < q := lt_of_le_of_ne hfl (fun hh => h0 hh.symm)
    have hup : q < (⌊q⌋ : ℚ) + 1 := Int.lt_floor_add_one q
    have hceil : ⌈q⌉ = ⌊q⌋ + 1 := by
      refine le_antisymm (Int.ceil_le_floor_add_one q) ?_
      exact Int.add_one_le_ceil_iff.mpr hlt
    have hnegfl : ⌊-q⌋ = -⌊q⌋ - 1 := by
      rw [Int.floor_neg, hceil]; ring
    unfold rndHalfEven
    rw [hnegfl]
    have hh : (((-⌊q⌋ - 1 : ℤ)) : ℚ) = -(⌊q⌋:ℚ) - 1 := by push_cast; ring
    rw [hh]
    split_ifs <;> first | omega | linarith

theorem log2Down_spec (q : ℚ) :
    ∀ n : ℕ, ∀ e : ℤ, (2:ℚ) ^ (e - n) ≤ q → (2:ℚ) ^ (log2Down n q e) ≤ q := by
  intro n
  induction n with
  | zero => intro e h; simpa using h
  | succ n ih =>
    intro e h
    unfold log2Down
    split_ifs with hq
    · exact ih (e - 1) (by rw [show e - 1 - (n:ℤ) = e - (n+1:ℕ) by push_cast; ring]; exact h)
    · linarith

theorem log2Down_cases (q : ℚ) :
    ∀ n : ℕ, ∀ e : ℤ, log2Down n q e = e ∨ q < (2:ℚ) ^ (log2Down n q e + 1) := by
  intro n
  induction n with
  | zero => intro e; left; rfl
  | succ n ih =>
    intro e
    unfold log2Down
    split_ifs with hq
    · rcases ih (e - 1) with h | h
      · right; rw [h]; simpa using hq
      · right; exact h
    · left; rfl

theorem log2Up_lower (q : ℚ) :
    ∀ n : ℕ, ∀ e : ℤ, (2:ℚ) ^ e ≤ q → (2:ℚ) ^ (log2Up n q e) ≤ q := by
  intro n
  induction n with
  | zero => intro e h; simpa using h
  | succ n ih =>
    intro e h
    unfold log2Up
    split_ifs with hq
    · exact ih (e + 1) hq
    · simpa using h

theorem log2Up_upper (q : ℚ) :
    ∀ n : ℕ, ∀ e : ℤ, q < (2:ℚ) ^ (e + n + 1) → q < (2:ℚ) ^ (log2Up n q e + 1) := by
  intro n
  induction n with
  | zero => intro e h; simpa using h
  | succ n ih =>
    intro e h
    unfold log2Up
    split_ifs with hq
    · exact ih (e + 1) (by rw [show e + 1 + (n:ℤ) + 1 = e + (n+1:ℕ) + 1 by push_cast; ring]; exact h)
    · exact lt_of_not_le hq

theorem log2Up_stop (q : ℚ) :
    ∀ n : ℕ, ∀ e : ℤ, ¬ (2:ℚ) ^ (e + 1) ≤ q → log2Up n q e = e := by
  intro n
  induction n with
  | zero => intro e _; rfl
  | succ n _ =>
    intro e he
    unfold log2Up
    rw [if_neg he]

theorem floorLog2_spec (q : ℚ) (h1 : (2:ℚ) ^ (-(3000:ℤ)) ≤ q) (h2 : q < (2:ℚ) ^ (3000:ℤ)) :
    (2:ℚ) ^ (floorLog2 q) ≤ q ∧ q < (2:ℚ) ^ (floorLog2 q + 1) := by
  unfold floorLog2
  have hdown : (2:ℚ) ^ (log2Down 3100 q 0) ≤ q := by
    apply log2Down_spec
    calc (2:ℚ) ^ ((0:ℤ) - (3100:ℕ)) ≤ (2:ℚ) ^ (-(3000:ℤ)) := by
          apply zpow_le_zpow_right₀ (by norm_num)
          norm_num
      _ ≤ q := h1
  constructor
  · exact log2Up_lower q 3100 _ hdown
  · rcases log2Down_cases q 3100 0 with hc | hc
    · apply log2Up_upper
      rw [hc]
      calc q < (2:ℚ) ^ (3000:ℤ) := h2
        _ ≤ (2:ℚ) ^ ((0:ℤ) + (3100:ℕ) + 1) := by
            apply zpow_le_zpow_right₀ (by norm_num)
            norm_num
    · apply log2Up_upper
      calc q < (2:ℚ) ^ (log2Down 3100 q 0 + 1) := hc
        _ ≤ (2:ℚ) ^ (log2Down 3100 q 0 + (3100:ℕ) + 1) := by
            apply zpow_le_zpow_right₀ (by norm_num)
            omega

theorem rnd53_zero : rnd53 0 = 0 := by simp [rnd53]

theorem rnd53_neg (q : ℚ) : rnd53 (-q) = -rnd53 q := by
  by_cases h : q = 0
  · simp [h, rnd53]
  · unfold rnd53
    rw [if_neg (neg_ne_zero.mpr h), if_neg h, abs_neg, neg_div, rndHalfEven_neg]
    push_cast
    ring

theorem rnd53_err (q : ℚ) (h1 : (2:ℚ) ^ (-(3000:ℤ)) ≤ |q|) (h2 : |q| < (2:ℚ) ^ (3000:ℤ)) :
    |rnd53 q - q| ≤ |q| * (2:ℚ) ^ (-(53:ℤ)) := by
  have hq0 : q ≠ 0 := by
    intro hq
    rw [hq, abs_zero] at h1
    have : (0:ℚ) < (2:ℚ) ^ (-(3000:ℤ)) := zpow_pos (by norm_num) _
    linarith
  obtain ⟨hlo, hhi⟩ := floorLog2_spec |q| h1 h2
  unfold rnd53
  rw [if_neg hq0]
  have hs : (0:ℚ) < (2:ℚ) ^ (floorLog2 |q| - 52) := zpow_pos (by norm_num) _
  have key : |(rndHalfEven (q / (2:ℚ) ^ (floorLog2 |q| - 52)) : ℚ) * (2:ℚ) ^ (floorLog2 |q| - 52) - q|
      = |(rndHalfEven (q / (2:ℚ) ^ (floorLog2 |q| - 52)) : ℚ) - q / (2:ℚ) ^ (floorLog2 |q| - 52)|
        * (2:ℚ) ^ (floorLog2 |q| - 52) := by
    rw [show ((rndHalfEven (q / (2:ℚ) ^ (floorLog2 |q| - 52)) : ℚ)
          * (2:ℚ) ^ (floorLog2 |q| - 52) - q)
        = ((rndHalfEven (q / (2:ℚ) ^ (floorLog2 |q| - 52)) : ℚ)
          - q / (2:ℚ) ^ (floorLog2 |q| - 52)) * (2:ℚ) ^ (floorLog2 |q| - 52) from by
        field_simp]
    rw [abs_mul, abs_of_pos hs]
  rw [key]
  calc |(rndHalfEven (q / (2:ℚ) ^ (floorLog2 |q| - 52)) : ℚ) - q / (2:ℚ) ^ (floorLog2 |q| - 52)|
        * (2:ℚ) ^ (floorLog2 |q| - 52)
      ≤ (1/2) * (2:ℚ) ^ (floorLog2 |q| - 52) := by
        exact mul_le_mul_of_nonneg_right (rndHalfEven_le _) hs.le
    _ = (2:ℚ) ^ (floorLog2 |q|) * (2:ℚ) ^ (-(53:ℤ)) := by
        rw [← zpow_add₀ (by norm_num : (2:ℚ) ≠ 0)]
        rw [show floorLog2 |q| - 52 = floorLog2 |q| - 53 + 1 from by omega]
        rw [zpow_add₀ (by norm_num : (2:ℚ) ≠ 0)]
        norm_num
        ring_nf
    _ ≤ |q| * (2:ℚ) ^ (-(53:ℤ)) := by
        exact mul_le_mul_of_nonneg_right hlo (zpow_pos (by norm_num : (0:ℚ) < 2) _).le

theorem cast_two_pow_53 : (((2:ℤ) ^ (53:ℕ) : ℤ) : ℚ) = (2:ℚ) ^ (53:ℤ) := by
  rw [show ((53:ℤ)) = ((53:ℕ):ℤ) from rfl, zpow_natCast]
  push_cast
  rfl

theorem rnd53_intCast (m : ℤ) (h : |m| < 2 ^ 53) : rnd53 (m:ℚ) = m := by
  by_cases hm : m = 0
  · simp [hm, rnd53]
  have hq0 : (m:ℚ) ≠ 0 := Int.cast_ne_zero.mpr hm
  have habs : ((|m| : ℤ) : ℚ) = |(m:ℚ)| := Int.cast_abs
  have h1 : (2:ℚ) ^ (-(3000:ℤ)) ≤ |(m:ℚ)| := by
    have hm1 : (1:ℚ) ≤ |(m:ℚ)| := by
      have hma : (1:ℤ) ≤ |m| := by
        rcases abs_cases m with ⟨ha, _⟩ | ⟨ha, _⟩ <;> omega
      rw [← habs]
      exact_mod_cast hma
    calc (2:ℚ) ^ (-(3000:ℤ)) ≤ (2:ℚ) ^ (0:ℤ) := by
          apply zpow_le_zpow_right₀ (by norm_num); omega
      _ = 1 := by norm_num
      _ ≤ |(m:ℚ)| := hm1
  have h2over : |(m:ℚ)| < (2:ℚ) ^ (53:ℤ) := by
    rw [← habs, ← cast_two_pow_53]
    exact_mod_cast h
  have h2 : |(m:ℚ)| < (2:ℚ) ^ (3000:ℤ) := by
    calc |(m:ℚ)| < (2:ℚ) ^ (53:ℤ) := h2over
      _ ≤ (2:ℚ) ^ (3000:ℤ) := by
          apply zpow_le_zpow_right₀ (by norm_num); omega
  obtain ⟨hlo, hhi⟩ := floorLog2_spec |(m:ℚ)| h1 h2
  have he : floorLog2 |(m:ℚ)| ≤ 52 := by
    by_contra hcon
    push_neg at hcon
    have hbig : (2:ℚ) ^ (53:ℤ) ≤ (2:ℚ) ^ (floorLog2 |(m:ℚ)|) := by
      apply zpow_le_zpow_right₀ (by norm_num); omega
    linarith
  unfold rnd53
  rw [if_neg hq0]
  set e := floorLog2 |(m:ℚ)| with hedef
  set k : ℕ := (52 - e).toNat with hkdef
  have hk : ((k:ℤ)) = 52 - e := Int.toNat_of_nonneg (by omega)
  have hpows : (2:ℚ) ^ ((k:ℤ)) * (2:ℚ) ^ (e - 52) = 1 := by
    rw [← zpow_add₀ (by norm_num : (2:ℚ) ≠ 0), hk]
    norm_num
  have hqs : (m:ℚ) / (2:ℚ) ^ (e - 52) = ((m * 2 ^ k : ℤ) : ℚ) := by
    have hexp : -(e - 52) = (k:ℤ) := by omega
    rw [div_eq_mul_inv, ← zpow_neg, hexp]
    push_cast
    rw [zpow_natCast]
  rw [hqs, rndHalfEven_intCast]
  push_cast
  rw [show (2:ℚ)^(k:ℕ) = (2:ℚ)^((k:ℤ)) from (zpow_natCast (2:ℚ) k).symm]
  rw [mul_assoc, hpows, mul_one]

theorem rnd53_pos (q : ℚ) (hq : 0 < q) (h1 : (2:ℚ) ^ (-(3000:ℤ)) ≤ q) (h2 : q < (2:ℚ) ^ (3000:ℤ)) :
    0 < rnd53 q := by
  have habs : |q| = q := abs_of_pos hq
  obtain ⟨hlo, hhi⟩ := floorLog2_spec q h1 h2
  unfold rnd53
  rw [if_neg hq.ne', habs]
  have hs : (0:ℚ) < (2:ℚ) ^ (floorLog2 q - 52) := zpow_pos (by norm_num) _
  have hdiv : (1:ℚ) ≤ q / (2:ℚ) ^ (floorLog2 q - 52) := by
    rw [le_div_iff₀ hs]
    calc (1:ℚ) * (2:ℚ) ^ (floorLog2 q - 52) = (2:ℚ) ^ (floorLog2 q - 52) := one_mul _
      _ ≤ (2:ℚ) ^ (floorLog2 q) := by
          apply zpow_le_zpow_right₀ (by norm_num); omega
      _ ≤ q := hlo
  have hr : (1:ℤ) ≤ rndHalfEven (q / (2:ℚ) ^ (floorLog2 q - 52)) := rndHalfEven_one_le hdiv
  have : (1:ℚ) ≤ (rndHalfEven (q / (2:ℚ) ^ (floorLog2 q - 52)) : ℚ) := by exact_mod_cast hr
  nlinarith

/- ===================================================================
   Part 2 lemmas: Delta / timedelta model.
   =================================================================== -/

theorem zpow_neg3000_le : (2:ℚ) ^ (-(3000:ℤ)) ≤ 1/1000000 := by
  rw [zpow_neg, show ((3000:ℤ)) = ((3000:ℕ):ℤ) from rfl, zpow_natCast]
  rw [show (1:ℚ)/1000000 = (1000000:ℚ)⁻¹ from by norm_num]
  apply inv_anti₀ (by norm_num)
  calc (1000000:ℚ) ≤ 2 ^ (20:ℕ) := by norm_num
    _ ≤ 2 ^ (3000:ℕ) := by apply pow_le_pow_right₀ (by norm_num) (by norm_num)

theorem big_lt_zpow3000 : (2251799813685248:ℚ) < (2:ℚ) ^ (3000:ℤ) := by
  calc (2251799813685248:ℚ) = 2 ^ (51:ℕ) := by norm_num
    _ = (2:ℚ) ^ ((51:ℤ)) := by rw [show ((51:ℤ)) = ((51:ℕ):ℤ) from rfl, zpow_natCast]
    _ < (2:ℚ) ^ (3000:ℤ) := by
        apply zpow_lt_zpow_right₀ (by norm_num)
        norm_num

theorem big_mul_zpow53 : (2251799813685248:ℚ) * (2:ℚ) ^ (-(53:ℤ)) = 1/4 := by
  rw [zpow_neg, show ((53:ℤ)) = ((53:ℕ):ℤ) from rfl, zpow_natCast]
  norm_num

theorem million_mul_zpow53 : (1000000:ℚ) * (2:ℚ) ^ (-(53:ℤ)) ≤ 1/8 := by
  rw [zpow_neg, show ((53:ℤ)) = ((53:ℕ):ℤ) from rfl, zpow_natCast]
  rw [mul_inv_le_iff₀ (by norm_num)]
  norm_num

theorem truncQ_intCast (m : ℤ) : truncQ (m:ℚ) = m := by
  unfold truncQ
  split_ifs <;> simp

theorem truncQ_neg (q : ℚ) : truncQ (-q) = -truncQ q := by
  rcases lt_trichotomy q 0 with hc | hc | hc
  · unfold truncQ
    rw [if_pos (by linarith : (0:ℚ) ≤ -q), if_neg (not_le.mpr hc), Int.floor_neg]
  · rw [hc]
    simp [truncQ]
  · unfold truncQ
    rw [if_neg (not_le.mpr (by linarith : -q < 0)), if_pos hc.le, Int.ceil_neg]

theorem total_seconds_neg (tot : ℤ) : total_seconds (-tot) = -total_seconds tot := by
  unfold total_seconds
  push_cast
  rw [neg_div, rnd53_neg]

theorem timedeltaFromFloatSeconds_neg (f : ℚ) :
    timedeltaFromFloatSeconds (-f) = -timedeltaFromFloatSeconds f := by
  unfold timedeltaFromFloatSeconds
  rw [truncQ_neg]
  push_cast
  rw [show (-f - -((truncQ f : ℤ):ℚ)) * 1000000 = -((f - ((truncQ f : ℤ):ℚ)) * 1000000) from by ring]
  rw [rnd53_neg, rndHalfEven_neg]
  ring

theorem fromtimedelta_neg (tot : ℤ) : fromtimedelta (-tot) = -fromtimedelta tot := by
  unfold fromtimedelta
  rw [total_seconds_neg, timedeltaFromFloatSeconds_neg]

theorem fromtimedelta_eq_self_pos (tot : ℤ) (h1 : 0 < tot) (h2 : tot ≤ 2 ^ 51) :
    fromtimedelta tot = tot := by
  have hqr : 1000000 * (tot / 1000000) + tot % 1000000 = tot := Int.ediv_add_emod tot 1000000
  set q : ℤ := tot / 1000000 with hqdef
  set r : ℤ := tot % 1000000 with hrdef
  have hr0 : 0 ≤ r := Int.emod_nonneg tot (by norm_num)
  have hr1 : r < 1000000 := Int.emod_lt_of_pos tot (by norm_num)
  have hq0 : 0 ≤ q := Int.ediv_nonneg h1.le (by norm_num)
  have hq1 : q ≤ 2251799813685 := by omega
  have hcast : (tot:ℚ) = 1000000 * (q:ℚ) + (r:ℚ) := by
    rw [← hqr]
    push_cast
    ring
  by_cases hr2 : r = 0
  · have hxq : (tot:ℚ)/1000000 = ((q:ℤ):ℚ) := by
      rw [hcast, hr2]
      push_cast
      ring
    unfold fromtimedelta total_seconds timedeltaFromFloatSeconds
    rw [hxq, rnd53_intCast q (by rcases abs_cases q with ⟨hh, _⟩ | ⟨hh, _⟩ <;> omega),
      truncQ_intCast, sub_self, zero_mul, rnd53_zero,
      show ((0:ℚ)) = (((0:ℤ)):ℚ) from by norm_num, rndHalfEven_intCast]
    omega
  · have hrge1 : 1 ≤ r := by omega
    have hrQ0 : (1:ℚ) ≤ (r:ℚ) := by exact_mod_cast hrge1
    have hrQ1 : (r:ℚ) ≤ 999999 := by exact_mod_cast (by omega : r ≤ 999999)
    have hqQ0 : (0:ℚ) ≤ (q:ℚ) := by exact_mod_cast hq0
    have hxsplit : (tot:ℚ)/1000000 = (q:ℚ) + (r:ℚ)/1000000 := by
      rw [hcast]
      ring
    have hxpos : 0 < (tot:ℚ)/1000000 :=
      div_pos (by exact_mod_cast h1) (by norm_num)
    have habsx : |(tot:ℚ)/1000000| = (tot:ℚ)/1000000 := abs_of_pos hxpos
    have hxleB : (tot:ℚ)/1000000 ≤ 2251799813685248/1000000 := by
      apply div_le_div_of_nonneg_right ?_ (by norm_num)
      · exact_mod_cast le_trans h2 (by norm_num)
    have herr : |rnd53 ((tot:ℚ)/1000000) - (tot:ℚ)/1000000| ≤ 1/4000000 := by
      have h := rnd53_err ((tot:ℚ)/1000000)
        (by
          rw [habsx]
          calc (2:ℚ) ^ (-(3000:ℤ)) ≤ 1/1000000 := zpow_neg3000_le
            _ ≤ (tot:ℚ)/1000000 := by
                apply div_le_div_of_nonneg_right ?_ (by norm_num)
                exact_mod_cast h1)
        (by
          rw [habsx]
          calc (tot:ℚ)/1000000 ≤ 2251799813685248/1000000 := hxleB
            _ ≤ 2251799813685248 := by norm_num
            _ < (2:ℚ) ^ (3000:ℤ) := big_lt_zpow3000)
      calc |rnd53 ((tot:ℚ)/1000000) - (tot:ℚ)/1000000|
          ≤ |(tot:ℚ)/1000000| * (2:ℚ) ^ (-(53:ℤ)) := h
        _ ≤ (2251799813685248/1000000) * (2:ℚ) ^ (-(53:ℤ)) := by
            apply mul_le_mul_of_nonneg_right ?_ (zpow_pos (by norm_num : (0:ℚ) < 2) _).le
            rw [habsx]; exact hxleB
        _ = 1/4000000 := by
            rw [div_mul_eq_mul_div, big_mul_zpow53]
            norm_num
    set f : ℚ := rnd53 ((tot:ℚ)/1000000) with hfdef
    obtain ⟨hfl, hfu⟩ := abs_le.mp herr
    have hfq : (q:ℚ) < f := by
      have : (1:ℚ)/1000000 ≤ (r:ℚ)/1000000 := by linarith
      have hx1 : (q:ℚ) + 1/1000000 ≤ (tot:ℚ)/1000000 := by
        rw [hxsplit]; linarith
      linarith
    have hfq1 : f < (q:ℚ) + 1 := by
      have hx2 : (tot:ℚ)/1000000 ≤ (q:ℚ) + 999999/1000000 := by
        rw [hxsplit]; linarith
      linarith
    have hf0 : 0 ≤ f := by linarith
    have htrunc : truncQ f = q := by
      unfold truncQ
      rw [if_pos hf0]
      rw [Int.floor_eq_iff]
      constructor
      · exact hfq.le
      · linarith
    unfold fromtimedelta total_seconds timedeltaFromFloatSeconds
    rw [← hfdef, htrunc]
    have hur : (f - ((q:ℤ):ℚ)) * 1000000 - (r:ℚ)
        = (f - (tot:ℚ)/1000000) * 1000000 := by
      rw [hxsplit]
      ring
    have huabs : |(f - ((q:ℤ):ℚ)) * 1000000 - (r:ℚ)| ≤ 1/4 := by
      rw [hur, abs_mul, abs_of_pos (by norm_num : (0:ℚ) < 1000000)]
      calc |f - (tot:ℚ)/1000000| * 1000000 ≤ (1/4000000) * 1000000 := by
            apply mul_le_mul_of_nonneg_right herr (by norm_num)
        _ = 1/4 := by norm_num
    obtain ⟨hul, huu⟩ := abs_le.mp huabs
    set u : ℚ := (f - ((q:ℤ):ℚ)) * 1000000 with hudef
    have hu34 : (3:ℚ)/4 ≤ u := by linarith
    have huhi : u ≤ 1000000 := by linarith
    have hupos : 0 < u := by linarith
    have husd : |rnd53 u - u| ≤ 1/8 := by
      have h := rnd53_err u
        (by
          rw [abs_of_pos hupos]
          calc (2:ℚ) ^ (-(3000:ℤ)) ≤ 1/1000000 := zpow_neg3000_le
            _ ≤ 3/4 := by norm_num
            _ ≤ u := hu34)
        (by
          rw [abs_of_pos hupos]
          calc u ≤ 1000000 := huhi
            _ ≤ 2251799813685248 := by norm_num
            _ < (2:ℚ) ^ (3000:ℤ) := big_lt_zpow3000)
      calc |rnd53 u - u| ≤ |u| * (2:ℚ) ^ (-(53:ℤ)) := h
        _ ≤ (1000000:ℚ) * (2:ℚ) ^ (-(53:ℤ)) := by
            apply mul_le_mul_of_nonneg_right ?_ (zpow_pos (by norm_num : (0:ℚ) < 2) _).le
            rw [abs_of_pos hupos]; exact huhi
        _ ≤ 1/8 := million_mul_zpow53
    have hfin : rndHalfEven (rnd53 u) = r := by
      apply rndHalfEven_eq_of_abs_lt
      obtain ⟨ha, hb⟩ := abs_le.mp husd
      rw [abs_lt]
      constructor <;> linarith
    rw [hfin]
    omega

theorem pow40_mul_zpow53 : (1099511627776:ℚ) * (2:ℚ) ^ (-(53:ℤ)) ≤ 1/8192 := by
  rw [zpow_neg, show ((53:ℤ)) = ((53:ℕ):ℤ) from rfl, zpow_natCast]
  rw [mul_inv_le_iff₀ (by norm_num)]
  norm_num

theorem pyIntDivFloat_eq (a n : ℤ) (ha0 : 0 ≤ a) (ha : a ≤ 1099511627776)
    (hn1 : 1 ≤ n) (hn : n ≤ 3600) : pyIntDivFloat a n = a / n := by
  have hqr : n * (a / n) + a % n = a := Int.ediv_add_emod a n
  set k : ℤ := a / n with hkdef
  set r : ℤ := a % n with hrdef
  have hr0 : 0 ≤ r := Int.emod_nonneg a (by omega)
  have hr1 : r < n := Int.emod_lt_of_pos a (by omega)
  have hk0 : 0 ≤ k := Int.ediv_nonneg ha0 (by omega)
  have hk1 : k ≤ 1099511627776 := le_trans (Int.ediv_le_self n ha0) ha
  have hnQ : (0:ℚ) < (n:ℚ) := by exact_mod_cast (by omega : (0:ℤ) < n)
  have hnQ36 : (n:ℚ) ≤ 3600 := by exact_mod_cast hn
  have hcast : (a:ℚ) = (n:ℚ) * (k:ℚ) + (r:ℚ) := by
    rw [← hqr]
    push_cast
    ring
  by_cases hr2 : r = 0
  · have hxq : (a:ℚ)/(n:ℚ) = ((k:ℤ):ℚ) := by
      rw [hcast, hr2]
      field_simp
    unfold pyIntDivFloat
    rw [hxq, rnd53_intCast k (by rcases abs_cases k with ⟨hh, _⟩ | ⟨hh, _⟩ <;> omega),
      truncQ_intCast]
  · have hrge1 : (1:ℚ) ≤ (r:ℚ) := by exact_mod_cast (by omega : (1:ℤ) ≤ r)
    have hkQ0 : (0:ℚ) ≤ (k:ℚ) := by exact_mod_cast hk0
    have hxsplit : (a:ℚ)/(n:ℚ) = (k:ℚ) + (r:ℚ)/(n:ℚ) := by
      rw [hcast]
      field_simp
      ring
    have hinvn : (1:ℚ)/3600 ≤ 1/(n:ℚ) := one_div_le_one_div_of_le hnQ hnQ36
    have hrn_lo : (1:ℚ)/(n:ℚ) ≤ (r:ℚ)/(n:ℚ) := div_le_div_of_nonneg_right hrge1 hnQ.le
    have hrn_hi : (r:ℚ)/(n:ℚ) ≤ 1 - 1/(n:ℚ) := by
      have h1 : (r:ℚ) ≤ (n:ℚ) - 1 := by
        have h1z : (r:ℤ) ≤ n - 1 := by omega
        exact_mod_cast h1z
      have h2 : (r:ℚ)/(n:ℚ) ≤ ((n:ℚ) - 1)/(n:ℚ) := div_le_div_of_nonneg_right h1 hnQ.le
      have h3 : ((n:ℚ) - 1)/(n:ℚ) = 1 - 1/(n:ℚ) := by field_simp
      linarith
    have hxlo : (1:ℚ)/3600 ≤ (a:ℚ)/(n:ℚ) := by
      rw [hxsplit]
      linarith
    have hxpos : 0 < (a:ℚ)/(n:ℚ) := lt_of_lt_of_le (by norm_num) hxlo
    have habsx : |(a:ℚ)/(n:ℚ)| = (a:ℚ)/(n:ℚ) := abs_of_pos hxpos
    have hxhi : (a:ℚ)/(n:ℚ) ≤ 1099511627776 := by
      calc (a:ℚ)/(n:ℚ) ≤ (a:ℚ) := by
            apply div_le_self ?_ ?_
            · exact_mod_cast ha0
            · exact_mod_cast hn1
        _ ≤ 1099511627776 := by exact_mod_cast ha
    have herr : |rnd53 ((a:ℚ)/(n:ℚ)) - (a:ℚ)/(n:ℚ)| ≤ 1/8192 := by
      have h := rnd53_err ((a:ℚ)/(n:ℚ))
        (by
          rw [habsx]
          calc (2:ℚ) ^ (-(3000:ℤ)) ≤ 1/1000000 := zpow_neg3000_le
            _ ≤ 1/3600 := by norm_num
            _ ≤ (a:ℚ)/(n:ℚ) := hxlo)
        (by
          rw [habsx]
          calc (a:ℚ)/(n:ℚ) ≤ 1099511627776 := hxhi
            _ ≤ 2251799813685248 := by norm_num
            _ < (2:ℚ) ^ (3000:ℤ) := big_lt_zpow3000)
      calc |rnd53 ((a:ℚ)/(n:ℚ)) - (a:ℚ)/(n:ℚ)|
          ≤ |(a:ℚ)/(n:ℚ)| * (2:ℚ) ^ (-(53:ℤ)) := h
        _ ≤ (1099511627776:ℚ) * (2:ℚ) ^ (-(53:ℤ)) := by
            apply mul_le_mul_of_nonneg_right ?_ (zpow_pos (by norm_num : (0:ℚ) < 2) _).le
            rw [habsx]; exact hxhi
        _ ≤ 1/8192 := pow40_mul_zpow53
    set f : ℚ := rnd53 ((a:ℚ)/(n:ℚ)) with hfdef
    obtain ⟨hfl, hfu⟩ := abs_le.mp herr
    have hfk : (k:ℚ) < f := by
      have hx1 : (k:ℚ) + 1/3600 ≤ (a:ℚ)/(n:ℚ) := by
        rw [hxsplit]
        have := le_trans hinvn hrn_lo
        linarith
      have : (1:ℚ)/3600 - 1/8192 > 0 := by norm_num
      linarith
    have hfk1 : f < (k:ℚ) + 1 := by
      have hx2 : (a:ℚ)/(n:ℚ) ≤ (k:ℚ) + 1 - 1/3600 := by
        rw [hxsplit]
        have := le_trans hinvn (le_refl (1/(n:ℚ)))
        linarith [hrn_hi, hinvn]
      have : (1:ℚ)/3600 - 1/8192 > 0 := by norm_num
      linarith
    have hf0 : 0 ≤ f := by linarith
    unfold pyIntDivFloat
    rw [← hfdef]
    unfold truncQ
    rw [if_pos hf0, Int.floor_eq_iff]
    constructor
    · exact hfk.le
    · linarith

theorem tdDays_eq (d : ℤ) : tdDays d = d / 86400000000 :=
  Int.fdiv_eq_ediv d (by norm_num)

theorem tdSeconds_eq (d : ℤ) : tdSeconds d = d % 86400000000 / 1000000 := by
  unfold tdSeconds
  rw [Int.fmod_eq_emod _ (by norm_num), Int.fdiv_eq_ediv _ (by norm_num)]

theorem tdMicroseconds_eq (d : ℤ) : tdMicroseconds d = d % 1000000 :=
  Int.fmod_eq_emod d (by norm_num)

theorem total_seconds_pos (tot : ℤ) (h1 : 0 < tot) (h2 : tot ≤ 2 ^ 51) :
    0 < total_seconds tot := by
  unfold total_seconds
  apply rnd53_pos
  · exact div_pos (by exact_mod_cast h1) (by norm_num)
  · calc (2:ℚ) ^ (-(3000:ℤ)) ≤ 1/1000000 := zpow_neg3000_le
      _ ≤ (tot:ℚ)/1000000 := by
          apply div_le_div_of_nonneg_right ?_ (by norm_num)
          exact_mod_cast h1
  · calc (tot:ℚ)/1000000 ≤ (tot:ℚ) :=
        div_le_self (by exact_mod_cast h1.le) (by norm_num)
      _ ≤ 2251799813685248 := by exact_mod_cast le_trans h2 (by norm_num)
      _ < (2:ℚ) ^ (3000:ℤ) := big_lt_zpow3000

theorem total_seconds_zero : total_seconds 0 = 0 := by
  unfold total_seconds
  norm_num [rnd53_zero]

theorem deltaIterOf_eq (d factor : ℤ) (h0 : 0 ≤ d) (h2 : d ≤ 2 ^ 51) :
    deltaIterOf d factor
      = [(("weeks"), d / 86400000000 / 7 * factor),
         (("days"), d / 86400000000 % 7 * factor),
         (("hours"), d % 86400000000 / 1000000 / 3600 * factor),
         (("minutes"), d % 86400000000 / 1000000 / 60 % 60 * factor),
         (("seconds"), d % 86400000000 / 1000000 % 60 * factor),
         (("microseconds"), d % 1000000 * factor)] := by
  have hd1 : 0 ≤ d / 86400000000 := Int.ediv_nonneg h0 (by norm_num)
  have hd2 : d / 86400000000 ≤ 1099511627776 := by omega
  have hs0 : 0 ≤ d % 86400000000 / 1000000 := by
    apply Int.ediv_nonneg (Int.emod_nonneg d (by norm_num)) (by norm_num)
  have hs1 : d % 86400000000 / 1000000 ≤ 1099511627776 := by omega
  unfold deltaIterOf
  rw [tdDays_eq, tdSeconds_eq, tdMicroseconds_eq]
  rw [pyIntDivFloat_eq _ 7 hd1 hd2 (by norm_num) (by norm_num)]
  rw [pyIntDivFloat_eq _ 3600 hs0 hs1 (by norm_num) (by norm_num)]
  rw [pyIntDivFloat_eq _ 60 hs0 hs1 (by norm_num) (by norm_num)]
  rw [Int.fmod_eq_emod _ (by norm_num : (0:ℤ) ≤ 7),
    Int.fmod_eq_emod _ (by norm_num : (0:ℤ) ≤ 60), Int.fmod_eq_emod _ (by norm_num : (0:ℤ) ≤ 60)]

theorem fromtimedelta_eq_self (tot : ℤ) (h : |tot| ≤ 2 ^ 51) :
    fromtimedelta tot = tot := by
  rcases lt_trichotomy tot 0 with hc | hc | hc
  · have h2 : fromtimedelta (-tot) = -tot := by
      apply fromtimedelta_eq_self_pos _ (by omega)
      rcases abs_cases tot with ⟨h1, _⟩ | ⟨h1, _⟩ <;> omega
    have h3 : fromtimedelta (-tot) = -fromtimedelta tot := fromtimedelta_neg tot
    omega
  · rw [hc]
    with_unfolding_all rfl
  · apply fromtimedelta_eq_self_pos _ hc
    rcases abs_cases tot with ⟨h1, _⟩ | ⟨h1, _⟩ <;> omega

theorem deltaIter_branch_nonneg (tot : ℤ) (h0 : 0 ≤ tot) (h2 : tot ≤ 2 ^ 51) :
    deltaIter tot = deltaIterOf tot 1 := by
  unfold deltaIter
  rcases eq_or_lt_of_le h0 with hc | hc
  · rw [if_neg (by rw [← hc, total_seconds_zero]; norm_num)]
  · rw [if_neg (not_lt.mpr (total_seconds_pos tot hc h2).le)]

theorem deltaIter_branch_neg (tot : ℤ) (h1 : tot < 0) (h2 : -tot ≤ 2 ^ 51) :
    deltaIter tot = deltaIterOf (-tot) (-1) := by
  unfold deltaIter
  have he : total_seconds (-tot) = -total_seconds tot := total_seconds_neg tot
  have hneg : total_seconds tot < 0 := by
    have hp : 0 < total_seconds (-tot) := total_seconds_pos (-tot) (by omega) h2
    rw [he] at hp
    linarith
  rw [if_pos hneg]
  congr 1
  rw [show -total_seconds tot = total_seconds (-tot) from he.symm]
  exact fromtimedelta_eq_self (-tot) (by rcases abs_cases (-tot) with ⟨hh, _⟩ | ⟨hh, _⟩ <;> omega)

theorem sum_div_eq (w dy hh mi s us tot : ℤ)
    (key : 1000000 * (w * 604800 + dy * 86400 + hh * 3600 + mi * 60 + s) + us = tot) :
    (w : ℚ) * 604800 + (dy : ℚ) * 86400 + (hh : ℚ) * 3600 + (mi : ℚ) * 60 + (s : ℚ)
      + (us : ℚ) / 1000000 = (tot : ℚ) / 1000000 := by
  rw [← key]
  push_cast
  ring

/- ===================================================================
   Claim theorems for delta.py (C8, C9, C10).
   =================================================================== -/

/-- C8: every arithmetic operation monkey-patched onto `Delta` (addition,
subtraction, multiplication, floor division, true division, modulo, divmod,
unary plus, negation, absolute value) routes its result through `_asdelta`,
so every duration-valued component of the result carries the enriched `Delta`
type rather than being a plain native timedelta. -/
theorem delta_arithmetic_closed :
    ∀ a b k : ℤ, ∀ q : ℚ,
      allDelta (deltaAdd a b) = true ∧ allDelta (deltaSub a b) = true ∧
      allDelta (deltaMulInt a k) = true ∧ allDelta (deltaMulFloat a q) = true ∧
      allDelta (deltaFloordivInt a k) = true ∧ allDelta (deltaFloordivTd a b) = true ∧
      allDelta (deltaTruedivInt a k) = true ∧ allDelta (deltaTruedivTd a b) = true ∧
      allDelta (deltaMod a b) = true ∧ allDelta (deltaDivmod a b) = true ∧
      allDelta (deltaPos a) = true ∧ allDelta (deltaNeg a) = true ∧
      allDelta (deltaAbs a) = true := by
  intro a b k q
  exact ⟨rfl, rfl, rfl, rfl, rfl, rfl, rfl, rfl, rfl, rfl, rfl, rfl, rfl⟩

/-- C9 (amended): for every `Delta` whose total duration is at most `2^51`
microseconds in magnitude (about 71 years), iterating it yields exactly the
six pairs weeks/days/hours/minutes/seconds/microseconds, every component has
the sign of the delta, the component magnitudes are normalized
(`|days| < 7`, `|hours| < 24`, `|minutes| < 60`, `|seconds| < 60`,
`|microseconds| < 1000000`), and the weighted component sum reproduces the
exact total seconds `tot / 10^6` of the delta. -/
theorem delta_iter_decomposition (tot : ℤ) (h : |tot| ≤ 2 ^ 51) :
    ∃ w dy hh mi s us : ℤ,
      deltaIter tot = [(("weeks"), w), (("days"), dy), (("hours"), hh),
        (("minutes"), mi), (("seconds"), s), (("microseconds"), us)] ∧
      (0 ≤ tot → 0 ≤ w ∧ 0 ≤ dy ∧ 0 ≤ hh ∧ 0 ≤ mi ∧ 0 ≤ s ∧ 0 ≤ us) ∧
      (tot ≤ 0 → w ≤ 0 ∧ dy ≤ 0 ∧ hh ≤ 0 ∧ mi ≤ 0 ∧ s ≤ 0 ∧ us ≤ 0) ∧
      |dy| < 7 ∧ |hh| < 24 ∧ |mi| < 60 ∧ |s| < 60 ∧ |us| < 1000000 ∧
      ((w : ℚ) * 604800 + (dy : ℚ) * 86400 + (hh : ℚ) * 3600 + (mi : ℚ) * 60 + (s : ℚ)
        + (us : ℚ) / 1000000 = (tot : ℚ) / 1000000) := by
  rcases le_or_lt 0 tot with hsign | hsign
  · have hle : tot ≤ 2 ^ 51 := by
      rcases abs_cases tot with ⟨hh1, _⟩ | ⟨hh1, _⟩ <;> omega
    rw [deltaIter_branch_nonneg tot hsign hle, deltaIterOf_eq tot 1 hsign hle]
    refine ⟨tot / 86400000000 / 7 * 1, tot / 86400000000 % 7 * 1,
      tot % 86400000000 / 1000000 / 3600 * 1, tot % 86400000000 / 1000000 / 60 % 60 * 1,
      tot % 86400000000 / 1000000 % 60 * 1, tot % 1000000 * 1,
      rfl, ?_, ?_, ?_, ?_, ?_, ?_, ?_, ?_⟩
    · intro _
      refine ⟨?_, ?_, ?_, ?_, ?_, ?_⟩ <;> omega
    · intro h0
      refine ⟨?_, ?_, ?_, ?_, ?_, ?_⟩ <;> omega
    · rcases abs_cases (tot / 86400000000 % 7 * 1) with ⟨he, _⟩ | ⟨he, _⟩ <;> omega
    · rcases abs_cases (tot % 86400000000 / 1000000 / 3600 * 1) with ⟨he, _⟩ | ⟨he, _⟩ <;> omega
    · rcases abs_cases (tot % 86400000000 / 1000000 / 60 % 60 * 1) with ⟨he, _⟩ | ⟨he, _⟩ <;> omega
    · rcases abs_cases (tot % 86400000000 / 1000000 % 60 * 1) with ⟨he, _⟩ | ⟨he, _⟩ <;> omega
    · rcases abs_cases (tot % 1000000 * 1) with ⟨he, _⟩ | ⟨he, _⟩ <;> omega
    · apply sum_div_eq
      omega
  · have hle : -tot ≤ 2 ^ 51 := by
      rcases abs_cases tot with ⟨hh1, _⟩ | ⟨hh1, _⟩ <;> omega
    rw [deltaIter_branch_neg tot hsign hle, deltaIterOf_eq (-tot) (-1) (by omega) hle]
    refine ⟨(-tot) / 86400000000 / 7 * (-1), (-tot) / 86400000000 % 7 * (-1),
      (-tot) % 86400000000 / 1000000 / 3600 * (-1),
      (-tot) % 86400000000 / 1000000 / 60 % 60 * (-1),
      (-tot) % 86400000000 / 1000000 % 60 * (-1), (-tot) % 1000000 * (-1),
      rfl, ?_, ?_, ?_, ?_, ?_, ?_, ?_, ?_⟩
    · intro h0
      refine ⟨?_, ?_, ?_, ?_, ?_, ?_⟩ <;> omega
    · intro _
      refine ⟨?_, ?_, ?_, ?_, ?_, ?_⟩ <;> omega
    · rcases abs_cases ((-tot) / 86400000000 % 7 * (-1)) with ⟨he, _⟩ | ⟨he, _⟩ <;> omega
    · rcases abs_cases ((-tot) % 86400000000 / 1000000 / 3600 * (-1)) with ⟨he, _⟩ | ⟨he, _⟩ <;> omega
    · rcases abs_cases ((-tot) % 86400000000 / 1000000 / 60 % 60 * (-1)) with ⟨he, _⟩ | ⟨he, _⟩ <;> omega
    · rcases abs_cases ((-tot) % 86400000000 / 1000000 % 60 * (-1)) with ⟨he, _⟩ | ⟨he, _⟩ <;> omega
    · rcases abs_cases ((-tot) % 1000000 * (-1)) with ⟨he, _⟩ | ⟨he, _⟩ <;> omega
    · apply sum_div_eq
      omega

/-- C9 witness: the decomposition theorem applied to the concrete delta
`-3661000001` microseconds (about -1 hour 1 minute 1.000001 seconds). -/
theorem delta_iter_decomposition_witness :
    ∃ w dy hh mi s us : ℤ,
      deltaIter (-3661000001) = [(("weeks"), w), (("days"), dy), (("hours"), hh),
        (("minutes"), mi), (("seconds"), s), (("microseconds"), us)] ∧
      (0 ≤ (-3661000001 : ℤ) → 0 ≤ w ∧ 0 ≤ dy ∧ 0 ≤ hh ∧ 0 ≤ mi ∧ 0 ≤ s ∧ 0 ≤ us) ∧
      ((-3661000001 : ℤ) ≤ 0 → w ≤ 0 ∧ dy ≤ 0 ∧ hh ≤ 0 ∧ mi ≤ 0 ∧ s ≤ 0 ∧ us ≤ 0) ∧
      |dy| < 7 ∧ |hh| < 24 ∧ |mi| < 60 ∧ |s| < 60 ∧ |us| < 1000000 ∧
      ((w : ℚ) * 604800 + (dy : ℚ) * 86400 + (hh : ℚ) * 3600 + (mi : ℚ) * 60 + (s : ℚ)
        + (us : ℚ) / 1000000 = (((-3661000001 : ℤ)) : ℚ) / 1000000) :=
  delta_iter_decomposition (-3661000001) (by norm_num)

/-- C9 counterexample to the claim as stated: for the large negative delta of
-300000 days minus 1 microsecond, the negative branch of `__iter__` rebuilds
the working delta through the float path of `total_seconds`, losing the
microsecond, so the weighted component sum does not equal the delta's total
seconds. -/
theorem delta_iter_cx :
    deltaIter (-25920000000000001)
      = [(("weeks"), -42857), (("days"), -1), (("hours"), 0), (("minutes"), 0),
         (("seconds"), 0), (("microseconds"), 0)] ∧
    ((-42857 : ℚ) * 604800 + (-1 : ℚ) * 86400 + (0 : ℚ) * 3600 + (0 : ℚ) * 60 + (0 : ℚ)
        + (0 : ℚ) / 1000000 ≠ (((-25920000000000001 : ℤ)) : ℚ) / 1000000) := by
  constructor
  · with_unfolding_all rfl
  · intro hcon
    rw [show (((-25920000000000001 : ℤ)) : ℚ) = -25920000000000001 from by push_cast; ring] at hcon
    norm_num at hcon

/-- C10 (amended): for every native timedelta of magnitude at most `2^51`
microseconds (about 71 years), `Delta.fromtimedelta` represents exactly the
same duration: the microsecond total is preserved and so is the
`total_seconds()` value. -/
theorem fromtimedelta_preserves (tot : ℤ) (h : |tot| ≤ 2 ^ 51) :
    fromtimedelta tot = tot ∧ total_seconds (fromtimedelta tot) = total_seconds tot :=
  ⟨fromtimedelta_eq_self tot h, by rw [fromtimedelta_eq_self tot h]⟩

/-- C10 witness: the preservation theorem applied to the concrete timedelta of
123456 microseconds. -/
theorem fromtimedelta_preserves_witness :
    fromtimedelta 123456 = 123456 ∧
      total_seconds (fromtimedelta 123456) = total_seconds 123456 :=
  fromtimedelta_preserves 123456 (by norm_num)

/-- C10 counterexample to the claim as stated: for the timedelta of 200000
days plus 1 microsecond, `total_seconds()` rounds to a binary64 float that
cannot carry the microsecond, so `Delta.fromtimedelta` returns a different
duration than its argument. -/
theorem fromtimedelta_cx :
    fromtimedelta 17280000000000001 = 17280000000000000 ∧
      (17280000000000000 : ℤ) ≠ 17280000000000001 := by
  constructor
  · with_unfolding_all rfl
  · omega

/- ===================================================================
   Part 3 lemmas: the parsing/formatting engine.
   =================================================================== -/

theorem digitVal_char (m : ℕ) (h : m < 10) :
    digitVal (Char.ofNat (48 + m)) = some m := by
  interval_cases m <;> with_unfolding_all rfl

theorem readDigits_pad (k : ℕ) :
    ∀ (acc n : ℕ) (rest : List Char), n < 10 ^ k →
      readDigits k acc (padNum k n ++ rest) = some (acc * 10 ^ k + n, rest) := by
  induction k with
  | zero =>
    intro acc n rest h
    have hn : n = 0 := by omega
    subst hn
    simp [padNum, readDigits]
  | succ k ih =>
    intro acc n rest h
    have hpos : 0 < 10 ^ k := by positivity
    have hd : n / 10 ^ k < 10 := by
      rw [Nat.div_lt_iff_lt_mul hpos]
      calc n < 10 ^ (k + 1) := h
        _ = 10 * 10 ^ k := by ring
    show readDigits (k + 1) acc
        (Char.ofNat (48 + n / 10 ^ k) :: (padNum k (n % 10 ^ k) ++ rest)) = _
    rw [show readDigits (k + 1) acc
          (Char.ofNat (48 + n / 10 ^ k) :: (padNum k (n % 10 ^ k) ++ rest))
        = (match digitVal (Char.ofNat (48 + n / 10 ^ k)) with
           | some v => readDigits k (acc * 10 + v) (padNum k (n % 10 ^ k) ++ rest)
           | none => none) from rfl]
    rw [digitVal_char _ hd]
    show readDigits k (acc * 10 + n / 10 ^ k) (padNum k (n % 10 ^ k) ++ rest) = _
    rw [ih _ _ _ (Nat.mod_lt _ hpos)]
    have h2 : n / 10 ^ k * 10 ^ k + n % 10 ^ k = n := by
      rw [Nat.mul_comm]
      exact Nat.div_add_mod n (10 ^ k)
    have hA : (acc * 10 + n / 10 ^ k) * 10 ^ k + n % 10 ^ k = acc * 10 ^ (k + 1) + n := by
      calc (acc * 10 + n / 10 ^ k) * 10 ^ k + n % 10 ^ k
          = acc * (10 ^ k * 10) + (n / 10 ^ k * 10 ^ k + n % 10 ^ k) := by ring
        _ = acc * 10 ^ (k + 1) + n := by rw [h2]; ring
    rw [hA]

theorem parseDigits_pad (k n : ℕ) (rest : List Char) (h : n < 10 ^ k) :
    parseDigits k (padNum k n ++ rest) = some (n, rest) := by
  unfold parseDigits
  rw [readDigits_pad k 0 n rest h]
  norm_num

theorem readFrac_pad (k : ℕ) :
    ∀ (acc cnt n : ℕ) (rest : List Char), n < 10 ^ k →
      readFrac k acc cnt (padNum k n ++ rest) = (acc * 10 ^ k + n, cnt + k, rest) := by
  induction k with
  | zero =>
    intro acc cnt n rest h
    have hn : n = 0 := by omega
    subst hn
    simp [padNum, readFrac]
  | succ k ih =>
    intro acc cnt n rest h
    have hpos : 0 < 10 ^ k := by positivity
    have hd : n / 10 ^ k < 10 := by
      rw [Nat.div_lt_iff_lt_mul hpos]
      calc n < 10 ^ (k + 1) := h
        _ = 10 * 10 ^ k := by ring
    show readFrac (k + 1) acc cnt
        (Char.ofNat (48 + n / 10 ^ k) :: (padNum k (n % 10 ^ k) ++ rest)) = _
    rw [show readFrac (k + 1) acc cnt
          (Char.ofNat (48 + n / 10 ^ k) :: (padNum k (n % 10 ^ k) ++ rest))
        = (match digitVal (Char.ofNat (48 + n / 10 ^ k)) with
           | some v => readFrac k (acc * 10 + v) (cnt + 1) (padNum k (n % 10 ^ k) ++ rest)
           | none => (acc, cnt, Char.ofNat (48 + n / 10 ^ k) :: (padNum k (n % 10 ^ k) ++ rest)))
          from rfl]
    rw [digitVal_char _ hd]
    show readFrac k (acc * 10 + n / 10 ^ k) (cnt + 1) (padNum k (n % 10 ^ k) ++ rest) = _
    rw [ih _ _ _ _ (Nat.mod_lt _ hpos)]
    have h2 : n / 10 ^ k * 10 ^ k + n % 10 ^ k = n := by
      rw [Nat.mul_comm]
      exact Nat.div_add_mod n (10 ^ k)
    have hA : (acc * 10 + n / 10 ^ k) * 10 ^ k + n % 10 ^ k = acc * 10 ^ (k + 1) + n := by
      calc (acc * 10 + n / 10 ^ k) * 10 ^ k + n % 10 ^ k
          = acc * (10 ^ k * 10) + (n / 10 ^ k * 10 ^ k + n % 10 ^ k) := by ring
        _ = acc * 10 ^ (k + 1) + n := by rw [h2]; ring
    have hB : cnt + 1 + k = cnt + (k + 1) := by omega
    rw [hA, hB]

theorem parseFrac_pad (n : ℕ) (rest : List Char) (h : n < 10 ^ 6) :
    parseFrac (padNum 6 n ++ rest) = some (n, rest) := by
  unfold parseFrac
  rw [readFrac_pad 6 0 0 n rest h]
  norm_num

theorem parseOffset_iso :
    parseOffset ('+' :: '0' :: '0' :: ':' :: '0' :: '0' :: []) = some (some 0, []) := by
  with_unfolding_all rfl

theorem parseTime_iso (hh mi ss us : ℕ) (tail : List Char)
    (hha : hh < 10 ^ 2) (hmia : mi < 10 ^ 2) (hssa : ss < 10 ^ 2) (husa : us < 10 ^ 6) :
    parseTime (padNum 2 hh ++ ':' :: (padNum 2 mi ++ ':' :: (padNum 2 ss
      ++ ((if us = 0 then [] else '.' :: padNum 6 us) ++ ('+' :: tail)))))
      = some (hh, mi, ss, us, '+' :: tail) := by
  unfold parseTime
  rw [parseDigits_pad 2 hh _ hha]
  dsimp only
  rw [if_pos rfl, parseDigits_pad 2 mi _ hmia]
  dsimp only
  rw [if_pos rfl, parseDigits_pad 2 ss _ hssa]
  by_cases hus : us = 0
  · subst hus
    rw [if_pos rfl]
    dsimp only
    rw [List.nil_append]
    dsimp only
    rw [if_neg (by decide : ¬ ('+' : Char) = '.')]
  · rw [if_neg hus]
    dsimp only
    rw [List.cons_append]
    dsimp only
    rw [if_pos rfl, parseFrac_pad us _ husa]

theorem finishDefault_iso (y mo d hh mi ss us : ℕ)
    (h : validFields ⟨y, mo, d, hh, mi, ss, us⟩) :
    finishDefault y mo d hh mi ss us ('+' :: '0' :: '0' :: ':' :: '0' :: '0' :: [])
      = some (⟨y, mo, d, hh, mi, ss, us⟩, some 0, []) := by
  unfold finishDefault
  rw [if_pos h, parseOffset_iso]

/-- The raw default-format parse of the canonical ISO rendering of any valid
field reading recovers exactly those fields, a zero offset, and consumes the
whole input. -/
theorem defaultRawParse_iso (f : Fields) (h : validFields f) :
    defaultRawParse (isoformat f) = some (f, some 0, []) := by
  obtain ⟨y, mo, d, hh, mi, ss, us⟩ := f
  obtain ⟨h1, h2, h3, h4, h5, h6, h7, h8, h9, h10⟩ := h
  dsimp only at h1 h2 h3 h4 h5 h6 h7 h8 h9 h10
  have hya : y < 10 ^ 4 := by
    have : (10:ℕ) ^ 4 = 10000 := by norm_num
    omega
  have hmoa : mo < 10 ^ 2 := by
    have : (10:ℕ) ^ 2 = 100 := by norm_num
    omega
  have hda : d < 10 ^ 2 := by
    have hle : daysInMonth y mo ≤ 31 := by
      unfold daysInMonth
      split_ifs <;> simp_all
    have : (10:ℕ) ^ 2 = 100 := by norm_num
    omega
  have hha : hh < 10 ^ 2 := by
    have : (10:ℕ) ^ 2 = 100 := by norm_num
    omega
  have hmia : mi < 10 ^ 2 := by
    have : (10:ℕ) ^ 2 = 100 := by norm_num
    omega
  have hssa : ss < 10 ^ 2 := by
    have : (10:ℕ) ^ 2 = 100 := by norm_num
    omega
  have husa : us < 10 ^ 6 := by
    have : (10:ℕ) ^ 6 = 1000000 := by norm_num
    omega
  unfold isoformat defaultRawParse
  dsimp only
  rw [parseDigits_pad 4 y _ hya]
  dsimp only
  rw [if_pos rfl, parseDigits_pad 2 mo _ hmoa]
  dsimp only
  rw [if_pos rfl, parseDigits_pad 2 d _ hda]
  dsimp only
  rw [if_pos (Or.inl rfl : ('T' : Char) = 'T' ∨ ('T' : Char) = ' ')]
  rw [show padNum 2 hh ++ ':' :: (padNum 2 mi ++ ':' :: (padNum 2 ss
      ++ ((if us = 0 then [] else '.' :: padNum 6 us)
        ++ ('+' :: '0' :: '0' :: ':' :: '0' :: '0' :: []))))
    = padNum 2 hh ++ ':' :: (padNum 2 mi ++ ':' :: (padNum 2 ss
      ++ ((if us = 0 then [] else '.' :: padNum 6 us)
        ++ ('+' :: ('0' :: '0' :: ':' :: '0' :: '0' :: []))))) from rfl]
  rw [parseTime_iso hh mi ss us _ hha hmia hssa husa]
  dsimp only
  exact finishDefault_iso y mo d hh mi ss us ⟨h1, h2, h3, h4, h5, h6, h7, h8, h9, h10⟩

/- ===================================================================
   Claim theorems for the parsing engine (C1 - C7).
   =================================================================== -/

/-- C1 (amended): parsing the default-format (ISO) string produced by
formatting any valid instant, with no explicit formats, recovers the
identical instant.  (The per-pattern guarantee of the claim holds only for
patterns whose tokens determine the instant; see the counterexample for the
information-losing pattern `hh`.) -/
theorem default_roundtrip (f : Fields) (h : validFields f) :
    parse (isoformat f) none = .ok (fieldsToAbs f) := by
  unfold parse
  rw [defaultRawParse_iso f h]
  dsimp only
  norm_num

/-- C1 witness: the spec's example instant 2000-01-01T12:30:45.000015 UTC
round-trips through its default rendering. -/
theorem default_roundtrip_witness :
    parse (isoformat ⟨2000, 1, 1, 12, 30, 45, 15⟩) none
      = .ok (fieldsToAbs ⟨2000, 1, 1, 12, 30, 45, 15⟩) :=
  default_roundtrip ⟨2000, 1, 1, 12, 30, 45, 15⟩ (by decide)

/-- C1 counterexample to the claim as stated: the 12-hour pattern `hh`
formats the instant 2000-01-01T13:00:00 as `01`; parsing that string with the
same pattern yields an instant whose hour field is 1, which differs from the
original even at the precision of the pattern's smallest (and only) unit. -/
theorem pattern_roundtrip_cx :
    parseWithPattern (('h' :: 'h' :: []))
        (formatWithPattern (('h' :: 'h' :: [])) ⟨2000, 1, 1, 13, 0, 0, 0⟩)
      = some ⟨1900, 1, 1, 1, 0, 0, 0⟩ ∧
    Fields.hour ⟨1900, 1, 1, 1, 0, 0, 0⟩ ≠ Fields.hour ⟨2000, 1, 1, 13, 0, 0, 0⟩ := by
  constructor
  · with_unfolding_all rfl
  · decide

/-- C2: whenever the matched input carries an explicit numeric UTC offset of
`m` signed minutes, the parsed instant is the naive wall-clock reading minus
`m` minutes (UTC = local - offset), whatever `default_tz` is; in particular
the two maximum-magnitude offsets roll the date over by one day in each
direction: `2000-01-01T12:00:00-2359` parses to 2000-01-02T11:59:00 UTC and
`2000-01-01T12:00:00+2359` parses to 1999-12-31T12:01:00 UTC. -/
theorem parse_offset_subtracts :
    (∀ (cs : List Char) (f : Fields) (m : ℤ) (tz : Option String),
      defaultRawParse cs = some (f, some m, []) →
      parse cs tz = .ok (fieldsToAbs f - m * 60000000)) ∧
    parse (("2000-01-01T12:00:00-2359")).data none
      = .ok (fieldsToAbs ⟨2000, 1, 2, 11, 59, 0, 0⟩) ∧
    parse (("2000-01-01T12:00:00+2359")).data none
      = .ok (fieldsToAbs ⟨1999, 12, 31, 12, 1, 0, 0⟩) := by
  refine ⟨?_, ?_, ?_⟩
  · intro cs f m tz hraw
    unfold parse
    rw [hraw]
  · with_unfolding_all rfl
  · with_unfolding_all rfl

/-- C2 witness: the offset-subtraction clause applied to the concrete input
`2000-01-01T12:30:30-0400` (offset -240 minutes). -/
theorem parse_offset_subtracts_witness :
    parse (("2000-01-01T12:30:30-0400")).data none
      = .ok (fieldsToAbs ⟨2000, 1, 1, 12, 30, 30, 0⟩ - (-240) * 60000000) :=
  parse_offset_subtracts.1 (("2000-01-01T12:30:30-0400")).data
    ⟨2000, 1, 1, 12, 30, 30, 0⟩ (-240) none (by with_unfolding_all rfl)

/-- C3: the Offset Resolver accepts an explicit numeric offset exactly when
its total magnitude is at most 23 hours 59 minutes, for either sign; the
boundary offsets 2400 and 2500 make `parse` fail with `ParseError` in both
signs, while 2359 is accepted in both signs. -/
theorem offset_range_policy :
    (∀ (neg : Bool) (hh mm : ℕ), hh ≤ 99 → mm ≤ 59 →
      ((resolve_offset neg hh mm).isSome = true ↔ hh * 60 + mm ≤ 1439)) ∧
    parse (("2000-01-01T00:00:00+2359")).data none
      = .ok (fieldsToAbs ⟨1999, 12, 31, 0, 1, 0, 0⟩) ∧
    parse (("2000-01-01T00:00:00-2359")).data none
      = .ok (fieldsToAbs ⟨2000, 1, 1, 23, 59, 0, 0⟩) ∧
    parse (("2000-01-01T00:00:00+2400")).data none = .parseError ∧
    parse (("2000-01-01T00:00:00-2400")).data none = .parseError ∧
    parse (("2000-01-01T00:00:00+2500")).data none = .parseError ∧
    parse (("2000-01-01T00:00:00-2500")).data none = .parseError := by
  refine ⟨?_, ?_, ?_, ?_, ?_, ?_, ?_⟩
  · intro neg hh mm _ _
    unfold resolve_offset
    split_ifs with hc <;> simp <;> omega
  · with_unfolding_all rfl
  · with_unfolding_all rfl
  · with_unfolding_all rfl
  · with_unfolding_all rfl
  · with_unfolding_all rfl
  · with_unfolding_all rfl

/-- C3 witness: the acceptance equivalence at the boundary offset 23:59. -/
theorem offset_range_policy_witness :
    (resolve_offset false 23 59).isSome = true ↔ 23 * 60 + 59 ≤ 1439 :=
  offset_range_policy.1 false 23 59 (by norm_num) (by norm_num)

/-- C4: a default-format candidate matches only when it consumes the entire
input: any parse whose raw match leaves a nonempty remainder fails with
`ParseError`, and in particular `2000/01/01`, `01/01/2000` and `01-01-2000`
all fail with `ParseError` under the default formats. -/
theorem full_match_required :
    (∀ (cs rest : List Char) (f : Fields) (o : Option ℤ) (tz : Option String),
      defaultRawParse cs = some (f, o, rest) → rest ≠ [] → parse cs tz = .parseError) ∧
    parse (("2000/01/01")).data none = .parseError ∧
    parse (("01/01/2000")).data none = .parseError ∧
    parse (("01-01-2000")).data none = .parseError := by
  refine ⟨?_, ?_, ?_, ?_⟩
  · intro cs rest f o tz hraw hne
    unfold parse
    rw [hraw]
    rcases rest with _ | ⟨c, rest2⟩
    · exact absurd rfl hne
    · cases o <;> rfl
  · with_unfolding_all rfl
  · with_unfolding_all rfl
  · with_unfolding_all rfl

/-- C4 witness: the anchoring clause applied to `2000/01/01`, whose raw match
consumes only the year and leaves `/01/01` unconsumed. -/
theorem full_match_required_witness :
    parse (("2000/01/01")).data none = .parseError :=
  full_match_required.1 (("2000/01/01")).data
    ('/' :: '0' :: '1' :: '/' :: '0' :: '1' :: []) ⟨2000, 1, 1, 0, 0, 0, 0⟩ none none
    (by with_unfolding_all rfl) (List.cons_ne_nil _ _)

/-- C5: for an otherwise-parseable input with no explicit offset, an invalid
`default_tz` identifier fails with `ValueError`, an error kind distinct from
`ParseError`; in particular `parse("2000-01-01T00:00:00",
default_tz="not-a-real-zone")` yields `ValueError`. -/
theorem invalid_default_tz_valueerror :
    (∀ (cs : List Char) (f : Fields) (name : String),
      defaultRawParse cs = some (f, none, []) → tzOffsetMinutes name = none →
      parse cs (some name) = .valueError) ∧
    parse (("2000-01-01T00:00:00")).data (some (("not-a-real-zone"))) = .valueError ∧
    PResult.valueError ≠ PResult.parseError := by
  refine ⟨?_, ?_, ?_⟩
  · intro cs f name hraw htz
    unfold parse
    rw [hraw]
    dsimp only
    rw [htz]
  · with_unfolding_all rfl
  · decide

/-- C5 witness: the clause applied to the concrete input
`2000-01-01T00:00:00` with the unknown zone name `not-a-real-zone`. -/
theorem invalid_default_tz_valueerror_witness :
    parse (("2000-01-01T00:00:00")).data (some (("not-a-real-zone"))) = .valueError :=
  invalid_default_tz_valueerror.1 (("2000-01-01T00:00:00")).data
    ⟨2000, 1, 1, 0, 0, 0, 0⟩ (("not-a-real-zone"))
    (by with_unfolding_all rfl) (by with_unfolding_all rfl)

/-- C6 (amended): every fractional-second run length from `S` to `SSSSSS`
translates to the same single fractional token, whose matcher accepts 1 to 6
digits (the native `%f` semantics); in particular the six-digit string
`000006` parses to 6 microseconds under every run length, as pinned by
`test_parse_pattern_mapping`. -/
theorem frac_token_runs (k : ℕ) (h1 : 1 ≤ k) (h2 : k ≤ 6) :
    tokenizePattern k (List.replicate k ('S')) = [PatTok.frac] ∧
    translate_pattern (List.replicate k ('S')) = ('%' :: 'f' :: []) ∧
    parseWithPattern (List.replicate k ('S')) (('0' :: '0' :: '0' :: '0' :: '0' :: '6' :: []))
      = some ⟨1900, 1, 1, 0, 0, 0, 6⟩ := by
  interval_cases k <;>
    exact ⟨by with_unfolding_all rfl, by with_unfolding_all rfl, by with_unfolding_all rfl⟩

/-- C6 witness: the single-`S` run. -/
theorem frac_token_runs_witness :
    tokenizePattern 1 (List.replicate 1 ('S')) = [PatTok.frac] ∧
    translate_pattern (List.replicate 1 ('S')) = ('%' :: 'f' :: []) ∧
    parseWithPattern (List.replicate 1 ('S')) (('0' :: '0' :: '0' :: '0' :: '0' :: '6' :: []))
      = some ⟨1900, 1, 1, 0, 0, 0, 6⟩ :=
  frac_token_runs 1 (by norm_num) (by norm_num)

/-- C6 counterexample to the claim as stated: the run `S` of length 1 fully
matches the six-digit string `000006` (the run length is not an exact match
width), exactly as `test_parse_pattern_mapping` requires. -/
theorem frac_token_cx :
    parseWithPattern (('S' :: [])) (('0' :: '0' :: '0' :: '0' :: '0' :: '6' :: []))
      = some ⟨1900, 1, 1, 0, 0, 0, 6⟩ ∧
    (('0' :: '0' :: '0' :: '0' :: '0' :: '6' :: []) : List Char).length ≠ 1 := by
  constructor
  · with_unfolding_all rfl
  · decide

/-- C7: the Pattern Translator is a no-op on native-directive strings: any
candidate containing a `%` marker is treated as already native and returned
unchanged (tokens that are not human-pattern symbols are untouched);
`%Y-%m-%d` translates to itself. -/
theorem translate_native_noop :
    (∀ p : List Char, p.contains ('%') = true → translate_pattern p = p) ∧
    translate_pattern (("%Y-%m-%d")).data = (("%Y-%m-%d")).data := by
  constructor
  · intro p hp
    unfold translate_pattern
    rw [if_pos hp]
  · with_unfolding_all rfl

/-- C7 witness: the no-op clause applied to the native format `%Y-%m-%d`. -/
theorem translate_native_noop_witness :
    translate_pattern (("%Y-%m-%d")).data = (("%Y-%m-%d")).data :=
  translate_native_noop.1 (("%Y-%m-%d")).data (by with_unfolding_all rfl)

end Zulu
